import Mathlib

/-!
Verification of the ParametricGuitarMaker Fusion-360 add-in against its
natural-language specification.

The development shallowly embeds the Python sources:
  * `src/lib/parameter_bridge.py`  — schema/parameter bridge
  * `src/lib/timeline_manager.py`  — timeline suppression adapter
  * `src/commands/guitarMaker/entry.py` — palette message handlers

Host-side behaviour that Python reaches through the Fusion API is made
explicit: a design is a list of user parameters plus a flat timeline,
Python dicts are association lists with insert-or-overwrite semantics,
and host calls that may raise are modelled by boolean failure oracles
(a raised exception corresponds to the oracle returning `true`).
Floating-point parameter values are carried opaquely as integers: every
claim only moves them around, never computes with them.
-/

namespace GuitarMaker

/-- A user parameter of a Fusion design: the fields read by
`get_user_parameters` in `parameter_bridge.py` (name, expression,
internal value, unit, comment). -/
structure UserParam where
  name : String
  expression : String
  value : Int
  unit : String
  comment : String
deriving DecidableEq

/-- A timeline entry (feature or group).  `childIdxs` lists the flat-timeline
indices of the members of a group (empty for features); it models the
`TimelineGroup.item(i)` enumeration used by `get_group_items`. -/
structure TLItem where
  name : String
  isGroup : Bool
  suppressed : Bool
  childIdxs : List Nat
deriving DecidableEq

/-- The mutable document state the add-in touches: user parameters and the
timeline. -/
structure Design where
  userParams : List UserParam
  timeline : List TLItem
deriving DecidableEq

/-- Python-dict insertion: overwrite the value at an existing key in place,
otherwise append the binding (Python dicts keep first-insertion order). -/
def dictInsert (k : String) (v : α) : List (String × α) → List (String × α)
  | [] => [(k, v)]
  | (k', v') :: rest =>
    if k' = k then (k, v) :: rest else (k', v') :: dictInsert k v rest

/-- Python-dict lookup (first matching key; keys are unique after
`dictInsert`). -/
def assocLookup (k : String) : List (String × α) → Option α
  | [] => none
  | (k', v) :: rest => if k' = k then some v else assocLookup k rest

/-- Keys of a dict, in order. -/
def dictKeys (l : List (String × α)) : List String := l.map Prod.fst

/-- Python `str.strip()`: drop leading and trailing whitespace. -/
def pyStrip (s : String) : String :=
  String.mk
    (((s.data.dropWhile Char.isWhitespace).reverse.dropWhile
        Char.isWhitespace).reverse)

/-- `design.userParameters.itemByName(n)`: first parameter with that name. -/
def itemByNameUP (ups : List UserParam) (n : String) : Option UserParam :=
  ups.find? (fun p => p.name == n)

/-- `get_user_parameters` (parameter_bridge.py): build a dict keyed by
parameter name from the design's user-parameter collection. -/
def get_user_parameters (d : Design) : List (String × UserParam) :=
  d.userParams.foldl (fun acc p => dictInsert p.name p acc) []

-- ═════════════════════════════════════════════════════════════════
-- Fingerprint (parameter_bridge.py)
-- ═════════════════════════════════════════════════════════════════

def FINGERPRINT_PARAM : String := "FretboardFingerPrint"
def FINGERPRINT_VALUE : String := "FretboardMaker"

/-- `get_fingerprint`: expression of the `FretboardFingerPrint` user
parameter, if present. -/
def get_fingerprint (d : Design) : Option String :=
  (itemByNameUP d.userParams FINGERPRINT_PARAM).map (·.expression)

/-- The parameter added by `set_fingerprint` (value of a quoted string is
irrelevant to every claim; carried as 0). -/
def fingerprintParam : UserParam :=
  { name := FINGERPRINT_PARAM
    expression := "'FretboardMaker'"
    value := 0
    unit := ""
    comment := "Used by Parametric Guitar: Fretboard Maker to identify this file. Do not delete or modify." }

/-- `set_fingerprint`: add the fingerprint parameter unless already present.
`addFails d = true` models `userParameters.add` raising (the exception is
caught and logged, leaving the design unchanged). -/
def set_fingerprint (addFails : Design → Bool) (d : Design) : Design :=
  if (itemByNameUP d.userParams FINGERPRINT_PARAM).isSome then d
  else if addFails d then d
  else { d with userParams := d.userParams ++ [fingerprintParam] }

-- ═════════════════════════════════════════════════════════════════
-- Parameter schema (parameters.schema.json as read by parameter_bridge.py)
-- ═════════════════════════════════════════════════════════════════

/-- One parameter definition of the JSON schema.  Optional JSON keys are
`Option`s; the Python `.get(key, default)` reads become `Option.getD`. -/
structure ParamDef where
  name : String
  editable? : Option Bool
  label? : Option String
  unitKind? : Option String
  controlType? : Option String
  default? : Option String
  min? : Option Int
  max? : Option Int
  step? : Option Int
  description? : Option String
deriving DecidableEq

/-- One schema group. -/
structure GroupDef where
  id : String
  label : String
  order? : Option Int
  parameters : List ParamDef
deriving DecidableEq

/-- The parameter schema file. -/
structure Schema where
  schemaVersion? : Option String
  templateVersion? : Option String
  groups : List GroupDef
deriving DecidableEq

/-- `_get_editable_names`: names of schema parameters with
`editable` true (defaulting to true); empty when the schema failed to
load (`load_schema()` returned `None`). -/
def _get_editable_names : Option Schema → List String
  | none => []
  | some schema =>
    schema.groups.flatMap
      (fun g => ((g.parameters.filter (fun p => p.editable?.getD true)).map (·.name)))

/-- Every parameter name occurring in any schema group, editable or not
(the `schema_param_names` set of `build_ui_payload`). -/
def allSchemaNames (schema : Schema) : List String :=
  schema.groups.flatMap (fun g => g.parameters.map (·.name))

-- ═════════════════════════════════════════════════════════════════
-- apply_parameters (parameter_bridge.py)
-- ═════════════════════════════════════════════════════════════════

def notFoundError (n : String) : String := s!"Parameter not found in design: {n}"

def setFailedError (n e : String) : String := s!"Failed to set {n} = \"{e}\""

/-- Update the expression of the first user parameter named `n`
(`param.expression = new_expr` on the object found by `itemByName`). -/
def setParamExpr (n e : String) : List UserParam → List UserParam
  | [] => []
  | p :: rest =>
    if p.name = n then { p with expression := e } :: rest
    else p :: setParamExpr n e rest

/-- The `for name, new_expr in param_values.items()` loop of
`apply_parameters`.  `fail n e = true` models the assignment
`param.expression = e` raising (caught; an error message is recorded and the
loop continues).  Returns the updated parameter list, the `updated` count and
the `errors` list. -/
def applyLoop (allowed : List String) (fail : String → String → Bool)
    (ups : List UserParam) :
    List (String × String) → List UserParam × Nat × List String
  | [] => (ups, 0, [])
  | (name, expr0) :: rest =>
    let expr := pyStrip expr0
    if expr = "" then applyLoop allowed fail ups rest
    else if name ∉ allowed then
      -- protected formula-based parameter: logged and skipped
      applyLoop allowed fail ups rest
    else
      match itemByNameUP ups name with
      | none =>
        let r := applyLoop allowed fail ups rest
        (r.1, r.2.1, notFoundError name :: r.2.2)
      | some p =>
        if expr = p.expression then applyLoop allowed fail ups rest
        else if fail name expr then
          let r := applyLoop allowed fail ups rest
          (r.1, r.2.1, setFailedError name expr :: r.2.2)
        else
          let r := applyLoop allowed fail (setParamExpr name expr ups) rest
          (r.1, r.2.1 + 1, r.2.2)

/-- `apply_parameters(design, param_values)`: returns the new design, the
`updated` count and the `errors` list. -/
def apply_parameters (schema? : Option Schema) (fail : String → String → Bool)
    (d : Design) (paramValues : List (String × String)) :
    Design × Nat × List String :=
  let allowed := _get_editable_names schema?
  if allowed = [] then (d, 0, ["Schema could not be loaded."])
  else if paramValues = [] then (d, 0, [])
  else
    let r := applyLoop allowed fail d.userParams paramValues
    ({ d with userParams := r.1 }, r.2.1, r.2.2)

-- ═════════════════════════════════════════════════════════════════
-- build_ui_payload (parameter_bridge.py)
-- ═════════════════════════════════════════════════════════════════

/-- One parameter entry of the payload sent to the UI.  Entries built for
`extraParams` carry no `min`/`max`/`step` keys in Python; they are `none`
here. -/
structure UIParamEntry where
  name : String
  label : String
  unitKind : String
  controlType : String
  default : String
  min : Option Int
  max : Option Int
  step : Option Int
  description : String
  expression : String
  value : Option Int
  unit : String
deriving DecidableEq

/-- One group of the UI payload. -/
structure UIGroup where
  id : String
  label : String
  order : Int
  parameters : List UIParamEntry
deriving DecidableEq

/-- The model-state payload of `build_ui_payload`. -/
structure UIPayload where
  schemaVersion : String
  templateVersion : String
  groups : List UIGroup
  missing : List String
  extra : List String
  extraParams : List UIParamEntry
  mode : String
  fingerprint : Option String
  hasFingerprint : Bool
  documentUnit : String
deriving DecidableEq

/-- The `param_entry` dict built by `build_ui_payload` for an editable schema
parameter present in the live design. -/
def mkLiveEntry (p : ParamDef) (live : UserParam) : UIParamEntry :=
  { name := p.name
    label := p.label?.getD p.name
    unitKind := p.unitKind?.getD "length"
    controlType := p.controlType?.getD "number"
    default := p.default?.getD ""
    min := p.min?
    max := p.max?
    step := p.step?
    description := p.description?.getD ""
    expression := live.expression
    value := some live.value
    unit := live.unit }

/-- The full parameter object built for an extra (non-schema) design
parameter. -/
def mkExtraEntry (n : String) (live : UserParam) : UIParamEntry :=
  { name := n
    label := n
    unitKind := "unitless"
    controlType := "number"
    default := ""
    min := none
    max := none
    step := none
    description := live.comment
    expression := live.expression
    value := some live.value
    unit := live.unit }

/-- The inner `for param_def in group_def.get('parameters', [])` loop of
`build_ui_payload`: produces the group's entry list and the names appended to
`missing` (editable schema parameters absent from the live design). -/
def processParams (live : List (String × UserParam)) :
    List ParamDef → List UIParamEntry × List String
  | [] => ([], [])
  | p :: rest =>
    if p.editable?.getD true then
      match assocLookup p.name live with
      | none =>
        let r := processParams live rest
        (r.1, p.name :: r.2)
      | some info =>
        let r := processParams live rest
        (mkLiveEntry p info :: r.1, r.2)
    else processParams live rest

/-- The outer `for group_def in schema.get('groups', [])` loop: the unsorted
group list and the accumulated `missing` names. -/
def buildGroups (live : List (String × UserParam)) :
    List GroupDef → List UIGroup × List String
  | [] => ([], [])
  | g :: rest =>
    let pr := processParams live g.parameters
    let r := buildGroups live rest
    ({ id := g.id, label := g.label, order := g.order?.getD 0,
       parameters := pr.1 } :: r.1,
     pr.2 ++ r.2)

/-- `build_ui_payload(design)`: merge schema with live design values.
`docUnit` stands for `get_document_unit(design)` (a host read).  Returns
`none` exactly when `load_schema()` returned `None`. -/
def build_ui_payload (schema? : Option Schema) (docUnit : String)
    (d : Design) : Option UIPayload :=
  match schema? with
  | none => none
  | some schema =>
    let live := get_user_parameters d
    let gm := buildGroups live schema.groups
    let groups := gm.1.mergeSort (fun a b => a.order ≤ b.order)
    let extraNames := (dictKeys live).filter
      (fun n => !((allSchemaNames schema).contains n) && n != FINGERPRINT_PARAM)
    let extraParams := extraNames.filterMap
      (fun n => (assocLookup n live).map (mkExtraEntry n))
    let fingerprint := get_fingerprint d
    let hasFingerprint :=
      match fingerprint with
      | none => false
      | some s => s != ""
    some
      { schemaVersion := schema.schemaVersion?.getD "unknown"
        templateVersion := schema.templateVersion?.getD "unknown"
        groups := groups
        missing := gm.2
        extra := extraNames
        extraParams := extraParams
        mode := "live"
        fingerprint := fingerprint
        hasFingerprint := hasFingerprint
        documentUnit := docUnit }

-- ═════════════════════════════════════════════════════════════════
-- timeline_manager.py
-- ═════════════════════════════════════════════════════════════════

/-- Failure oracle for host calls on timeline objects, indexed by the item's
flat-timeline position: `readFails i` models reading item `i`'s attributes
raising inside the `get_all_items` loop; `setFails i` models the suppression
assignment of `_set_suppressed` raising. -/
structure TLEnv where
  readFails : Nat → Bool
  setFails : Nat → Bool

/-- The error-free host. -/
def tlOk : TLEnv := { readFails := fun _ => false, setFails := fun _ => false }

/-- The item dict built by `get_all_items`/`get_group_items`; the `'object'`
reference is carried as the flat-timeline index. -/
structure ItemDict where
  name : String
  type : String
  suppressed : Bool
  index : Nat
deriving DecidableEq

def mkItemDict (i : Nat) (it : TLItem) : ItemDict :=
  { name := it.name
    type := if it.isGroup then "Group" else "Feature"
    suppressed := it.suppressed
    index := i }

namespace timeline_manager

/-- The `for i in range(timeline.count)` loop of `get_all_items`: a raising
read aborts the loop and the surrounding `try/except` returns the items
collected so far. -/
def collectItems (env : TLEnv) (includeSuppressed : Bool) :
    Nat → List TLItem → List ItemDict
  | _, [] => []
  | i, it :: rest =>
    if env.readFails i then []
    else if !includeSuppressed && it.suppressed then
      collectItems env includeSuppressed (i + 1) rest
    else mkItemDict i it :: collectItems env includeSuppressed (i + 1) rest

/-- `get_all_items(design, include_suppressed)`. -/
def get_all_items (env : TLEnv) (t : List TLItem)
    (includeSuppressed : Bool := true) : List ItemDict :=
  collectItems env includeSuppressed 0 t

/-- `timeline.itemByName(name)`: per the source comment it works for features
but may not find groups — first non-group item with the name. -/
def itemByNameTL (t : List TLItem) (n : String) : Option Nat :=
  t.findIdx? (fun it => it.name == n && !it.isGroup)

/-- `find_item_by_name(design, name, exact=True)`: `itemByName` first, then
the full-scan fallback over `get_all_items`.  Returns the index of the found
item. -/
def find_item_by_name (env : TLEnv) (t : List TLItem) (n : String) :
    Option Nat :=
  match itemByNameTL t n with
  | some i => some i
  | none =>
    ((get_all_items env t true).find? (fun dct => dct.name == n)).map (·.index)

/-- The state change performed by `_set_suppressed` when the host write
succeeds: flip the flag of item `i` (on the group's timeline object or the
feature entity — one flag either way in this model). -/
def setSuppressedAt (t : List TLItem) (i : Nat) (b : Bool) : List TLItem :=
  match t[i]? with
  | none => t
  | some it => t.set i { it with suppressed := b }

/-- `_set_suppressed` as a fallible host write: `none` models the attribute
assignment raising (nothing written). -/
def _set_suppressed (env : TLEnv) (t : List TLItem) (i : Nat) (b : Bool) :
    Option (List TLItem) :=
  if env.setFails i then none else some (setSuppressedAt t i b)

/-- `suppress_item`: item not found, or a raising write caught by the
`try/except`, yields `False` with the timeline untouched. -/
def suppress_item (env : TLEnv) (t : List TLItem) (n : String) :
    Bool × List TLItem :=
  match find_item_by_name env t n with
  | none => (false, t)
  | some i =>
    match _set_suppressed env t i true with
    | none => (false, t)
    | some t' => (true, t')

/-- `unsuppress_item`. -/
def unsuppress_item (env : TLEnv) (t : List TLItem) (n : String) :
    Bool × List TLItem :=
  match find_item_by_name env t n with
  | none => (false, t)
  | some i =>
    match _set_suppressed env t i false with
    | none => (false, t)
    | some t' => (true, t')

/-- `toggle_item`: new state is the negation of the found item's current
flag; `none` on not-found or on a caught host exception. -/
def toggle_item (env : TLEnv) (t : List TLItem) (n : String) :
    Option Bool × List TLItem :=
  match find_item_by_name env t n with
  | none => (none, t)
  | some i =>
    match t[i]? with
    | none => (none, t)
    | some it =>
      let newState := !it.suppressed
      match _set_suppressed env t i newState with
      | none => (none, t)
      | some t' => (some newState, t')

/-- `get_group_items(design, group_name)`: scan for the first group with the
name, then enumerate its members through the flat-timeline indices. -/
def get_group_items (t : List TLItem) (groupName : String) : List ItemDict :=
  match t.findIdx? (fun it => it.isGroup && it.name == groupName) with
  | none => []
  | some gi =>
    match t[gi]? with
    | none => []
    | some grp =>
      grp.childIdxs.filterMap (fun ci => (t[ci]?).map (fun c => mkItemDict ci c))

/-- The per-child loop shared by `suppress_group_contents` and
`unsuppress_group_contents`: count successful writes, skip raising ones. -/
def setChildren (env : TLEnv) (b : Bool) :
    List TLItem → List ItemDict → Nat × List TLItem
  | t, [] => (0, t)
  | t, dct :: rest =>
    match _set_suppressed env t dct.index b with
    | none => setChildren env b t rest
    | some t' =>
      let r := setChildren env b t' rest
      (r.1 + 1, r.2)

/-- `suppress_group_contents` (the `items is None` branch of the source is
unreachable: `get_group_items` always returns a list). -/
def suppress_group_contents (env : TLEnv) (t : List TLItem) (g : String) :
    Nat × List TLItem :=
  setChildren env true t (get_group_items t g)

/-- `unsuppress_group_contents`. -/
def unsuppress_group_contents (env : TLEnv) (t : List TLItem) (g : String) :
    Nat × List TLItem :=
  setChildren env false t (get_group_items t g)

/-- `suppress_group_with_contents` (timeline_manager): suppress the group
itself, then — ignoring per-item results — its contents. -/
def suppress_group_with_contents (env : TLEnv) (t : List TLItem)
    (g : String) : Bool × List TLItem :=
  let r := suppress_item env t g
  if !r.1 then (false, r.2)
  else (true, (suppress_group_contents env r.2 g).2)

/-- `unsuppress_group_with_contents` (timeline_manager). -/
def unsuppress_group_with_contents (env : TLEnv) (t : List TLItem)
    (g : String) : Bool × List TLItem :=
  let r := unsuppress_item env t g
  if !r.1 then (false, r.2)
  else (true, (unsuppress_group_contents env r.2 g).2)

end timeline_manager

-- ═════════════════════════════════════════════════════════════════
-- Timeline wrappers in parameter_bridge.py
-- ═════════════════════════════════════════════════════════════════

/-- Result dict of `parameter_bridge.toggle_timeline_item`. -/
structure ToggleResult where
  success : Bool
  newState : Option Bool
  message : String
deriving DecidableEq

/-- Result dict of `parameter_bridge.suppress_timeline_item` /
`unsuppress_timeline_item`. -/
structure SimpleResult where
  success : Bool
  message : String
deriving DecidableEq

/-- Result dict of `parameter_bridge.suppress_group_with_contents` /
`unsuppress_group_with_contents`. -/
structure GroupOpResult where
  success : Bool
  itemsAffected : Nat
  message : String
deriving DecidableEq

namespace parameter_bridge

/-- `parameter_bridge.toggle_timeline_item`. -/
def toggle_timeline_item (env : TLEnv) (d : Design) (n : String) :
    ToggleResult × Design :=
  let r := timeline_manager.toggle_item env d.timeline n
  match r.1 with
  | none =>
    ({ success := false, newState := none,
       message := s!"Failed to toggle \"{n}\"" },
     { d with timeline := r.2 })
  | some s =>
    let word := if s then "suppressed" else "active"
    ({ success := true, newState := some s,
       message := s!"Toggled \"{n}\" (now {word})" },
     { d with timeline := r.2 })

/-- `parameter_bridge.suppress_timeline_item`. -/
def suppress_timeline_item (env : TLEnv) (d : Design) (n : String) :
    SimpleResult × Design :=
  let r := timeline_manager.suppress_item env d.timeline n
  ({ success := r.1
     message := if r.1 then s!"Suppressed \"{n}\"" else s!"Failed to suppress \"{n}\"" },
   { d with timeline := r.2 })

/-- `parameter_bridge.unsuppress_timeline_item`. -/
def unsuppress_timeline_item (env : TLEnv) (d : Design) (n : String) :
    SimpleResult × Design :=
  let r := timeline_manager.unsuppress_item env d.timeline n
  ({ success := r.1
     message := if r.1 then s!"Unsuppressed \"{n}\"" else s!"Failed to unsuppress \"{n}\"" },
   { d with timeline := r.2 })

/-- `parameter_bridge.suppress_group_with_contents`: on success the count is
re-read from `get_group_items` on the (post-mutation) timeline, plus one for
the group itself. -/
def suppress_group_with_contents (env : TLEnv) (d : Design) (g : String) :
    GroupOpResult × Design :=
  let r := timeline_manager.suppress_group_with_contents env d.timeline g
  if !r.1 then
    ({ success := false, itemsAffected := 0,
       message := s!"Failed to suppress group \"{g}\"" },
     { d with timeline := r.2 })
  else
    let items := timeline_manager.get_group_items r.2 g
    ({ success := true, itemsAffected := items.length + 1,
       message := s!"Suppressed group \"{g}\" and {items.length} item(s)" },
     { d with timeline := r.2 })

/-- `parameter_bridge.unsuppress_group_with_contents`. -/
def unsuppress_group_with_contents (env : TLEnv) (d : Design) (g : String) :
    GroupOpResult × Design :=
  let r := timeline_manager.unsuppress_group_with_contents env d.timeline g
  if !r.1 then
    ({ success := false, itemsAffected := 0,
       message := s!"Failed to unsuppress group \"{g}\"" },
     { d with timeline := r.2 })
  else
    let items := timeline_manager.get_group_items r.2 g
    ({ success := true, itemsAffected := items.length + 1,
       message := s!"Unsuppressed group \"{g}\" and {items.length} item(s)" },
     { d with timeline := r.2 })

end parameter_bridge

-- ═════════════════════════════════════════════════════════════════
-- entry.py — template save / delete
-- ═════════════════════════════════════════════════════════════════

namespace entry

/-- Python `\w` over the ASCII model (letters, digits, underscore). -/
def isWordChar (c : Char) : Bool := c.isAlphanum || c == '_'

/-- The `[\s-]` class of the second slugify regex. -/
def isSpaceHyphen (c : Char) : Bool := c.isWhitespace || c == '-'

/-- `re.sub(r'[^\w\s-]', '', name.lower())`. -/
def slugFilter (s : List Char) : List Char :=
  (s.map Char.toLower).filter (fun c => isWordChar c || isSpaceHyphen c)

/-- `re.sub(r'[\s-]+', '_', ·)`: each maximal run of whitespace/hyphens
becomes a single underscore (the boolean tracks whether the previous
character was part of such a run). -/
def collapseRuns : Bool → List Char → List Char
  | _, [] => []
  | prevSep, c :: rest =>
    if isSpaceHyphen c then
      if prevSep then collapseRuns true rest
      else '_' :: collapseRuns true rest
    else c :: collapseRuns false rest

/-- `.strip('_')`. -/
def stripUnderscores (s : List Char) : List Char :=
  ((s.dropWhile (· == '_')).reverse.dropWhile (· == '_')).reverse

/-- The slug computed by `_on_save_template` (`... or 'template'`). -/
def slugify (name : String) : String :=
  let s := stripUnderscores (collapseRuns false (slugFilter name.data))
  if s.isEmpty then "template" else String.mk s

/-- The template dict written by `_on_save_template` — exactly the five keys
`name`, `description`, `createdAt`, `schemaVersion`, `parameters`.  Files in
the user templates directory were written by the add-in, so a readable file
always carries all five. -/
structure Template where
  name : String
  description : String
  createdAt : String
  schemaVersion : String
  parameters : List (String × String)
deriving DecidableEq

/-- The user templates directory as a map filename → parse result;
`none` models a file `_load_template_file` cannot read (or that parses to a
falsy value). -/
abbrev TemplateFS := List (String × Option Template)

/-- The parsed body of a SAVE_TEMPLATE message (`data.get(key, default)`
reads become `Option.getD`). -/
structure SaveMsg where
  name? : Option String
  description? : Option String
  schemaVersion? : Option String
  parameters? : Option (List (String × String))
deriving DecidableEq

/-- The `while os.path.isfile(...)` counter search, fuelled by the (finite)
directory size. -/
def findCounterAux (fs : TemplateFS) (slug : String) :
    Nat → Nat → Nat
  | 0, c => c
  | fuel + 1, c =>
    if (assocLookup (slug ++ "_" ++ toString c ++ ".json") fs).isSome then
      findCounterAux fs slug fuel (c + 1)
    else c

/-- `_on_save_template(data_json)` acting on the user templates directory.
`today` stands for `str(date.today())`; `msg = none` models a JSON parse
failure. -/
def _on_save_template (fs : TemplateFS) (today : String)
    (msg : Option SaveMsg) : TemplateFS :=
  match msg with
  | none => fs
  | some m =>
    let name := pyStrip (m.name?.getD "")
    if name = "" then fs
    else
      let slug := slugify name
      let template : Template :=
        { name := name
          description := m.description?.getD ""
          createdAt := today
          schemaVersion := m.schemaVersion?.getD "0.3.0"
          parameters := m.parameters?.getD [] }
      let fname :=
        match assocLookup (slug ++ ".json") fs with
        | none => slug ++ ".json"
        | some existing? =>
          match existing? with
          | none => slug ++ ".json"
          | some ex =>
            if ex.name ≠ name then
              let c := findCounterAux fs slug (fs.length + 1) 2
              slug ++ "_" ++ toString c ++ ".json"
            else slug ++ ".json"
      dictInsert fname (some template) fs

/-- Path separators recognised by `os.path` on Windows. -/
def isSep (c : Char) : Bool := c == '/' || c == '\\'

/-- `os.path.basename`: the suffix after the last path separator. -/
def basenameChars (s : List Char) : List Char :=
  (s.reverse.takeWhile (fun c => !isSep c)).reverse

/-- `_on_delete_template` acting on the file system, modelled as the set of
existing absolute paths split into segments (the user templates directory is
an absolute, normalised path).  The `startswith` guard on
`os.path.abspath` becomes a segment-prefix test. -/
def _on_delete_template (fs : List (List String)) (userDir : List String)
    (templateId : String) : List (List String) :=
  if templateId = "" then fs
  else
    let safeId := String.mk (basenameChars templateId.data)
    let fp := userDir ++ [safeId ++ ".json"]
    if userDir.isPrefixOf fp then
      if fp ∈ fs then fs.erase fp else fs
    else fs

-- ═════════════════════════════════════════════════════════════════
-- entry.py — palette messages and deferred-event dispatch
-- ═════════════════════════════════════════════════════════════════

/-- One change of an APPLY_TIMELINE_CHANGES batch, with the
`change.get(key, default)` reads already applied. -/
structure TChange where
  name : String
  type : String
  suppressed : Bool
deriving DecidableEq

/-- The stashed `_pending_timeline_op` (`data` reduced to its
`changes` list, the only key the handler reads). -/
structure TimelineOp where
  action : String
  changes : List TChange
deriving DecidableEq

/-- A message pushed to the palette with `sendInfoToHTML`. -/
inductive SentMsg where
  | computing
  | pushModelState (p : UIPayload)
  | timelineResult (success : Bool) (message : String) (successCount : Nat)
      (failed : List String)
deriving DecidableEq

def APPLY_EVENT_ID : String :=
  "ParametricGuitar_ParametricGuitarFretboardMaker_applyParams"

def TIMELINE_EVENT_ID : String :=
  "ParametricGuitar_ParametricGuitarFretboardMaker_timelineOp"

/-- Host-side context of the plugin: whether the palette exists, the loaded
schema, the document unit, the design a template import would open (`none`
when `fretboard_imperial.f3d` is missing), plus the failure oracles. -/
structure HostEnv where
  paletteExists : Bool
  schema? : Option Schema
  docUnit : String
  templateDesign? : Option Design
  applyFail : String → String → Bool
  addFpFails : Design → Bool
  tl : TLEnv
  changeRaises : TChange → Bool

/-- Module-level plugin state: the active design, the two pending slots, the
messages sent to the palette so far, and the custom events fired so far. -/
structure PluginState where
  design? : Option Design
  pendingApply : Option (List (String × String))
  pendingTimelineOp : Option TimelineOp
  sent : List SentMsg
  fired : List String
deriving DecidableEq

/-- `palette.sendInfoToHTML` guarded by `ui.palettes.itemById(PALETTE_ID)`. -/
def sendInfoToHTML (env : HostEnv) (s : PluginState) (m : SentMsg) :
    PluginState :=
  if env.paletteExists then { s with sent := s.sent ++ [m] } else s

/-- `_on_apply_params(data_json)`: parse, stash in `_pending_apply`, tell the
UI COMPUTING, fire the apply event.  `parsed = none` models `json.loads`
raising. -/
def _on_apply_params (env : HostEnv) (s : PluginState)
    (parsed : Option (List (String × String))) : PluginState :=
  match parsed with
  | none => s
  | some pv =>
    let s1 := { s with pendingApply := some pv }
    let s2 := sendInfoToHTML env s1 .computing
    { s2 with fired := s2.fired ++ [APPLY_EVENT_ID] }

/-- `_queue_timeline_op(action, data_json)`: parse, stash in
`_pending_timeline_op`, fire the timeline event. -/
def _queue_timeline_op (_env : HostEnv) (s : PluginState) (action : String)
    (parsed : Option (List TChange)) : PluginState :=
  match parsed with
  | none => s
  | some changes =>
    let s1 := { s with pendingTimelineOp := some { action := action, changes := changes } }
    { s1 with fired := s1.fired ++ [TIMELINE_EVENT_ID] }

/-- `_on_refresh_request`: push a fresh model-state payload when a design is
active and the schema loads. -/
def _on_refresh_request (env : HostEnv) (s : PluginState) : PluginState :=
  match s.design? with
  | none => s
  | some d =>
    match build_ui_payload env.schema? env.docUnit d with
    | none => s
    | some payload => sendInfoToHTML env s (.pushModelState payload)

/-- `_deferred_apply_handler`: clear the slot first, then (importing the
template on first apply) run `apply_parameters` and push the refreshed
state. -/
def _deferred_apply_handler (env : HostEnv) (s : PluginState) : PluginState :=
  let pv? := s.pendingApply
  let s := { s with pendingApply := none }
  match pv? with
  | none => s
  | some pv =>
    match s.design? with
    | none => s
    | some d0 =>
      let step :=
        if d0.userParams = [] then
          match env.templateDesign? with
          | none => none
          | some td =>
            let td := set_fingerprint env.addFpFails td
            some (td, { s with design? := some td })
        else some (d0, s)
      match step with
      | none => s
      | some (d, s) =>
        let r := apply_parameters env.schema? env.applyFail d pv
        let s := { s with design? := some r.1 }
        _on_refresh_request env s

/-- One iteration of the `for change in changes` loop (the wrapper called is
selected by the change's type and target state). -/
def applyOneChange (env : HostEnv) (d : Design) (c : TChange) : Design :=
  if c.type == "Group" then
    if c.suppressed then
      (parameter_bridge.suppress_group_with_contents env.tl d c.name).2
    else (parameter_bridge.unsuppress_group_with_contents env.tl d c.name).2
  else
    if c.suppressed then
      (parameter_bridge.suppress_timeline_item env.tl d c.name).2
    else (parameter_bridge.unsuppress_timeline_item env.tl d c.name).2

/-- The batch loop of `_deferred_timeline_handler`: successes are counted,
a raising change (oracle `changeRaises`) contributes its name to `failed`
and leaves the design as it was for that step. -/
def applyChanges (env : HostEnv) :
    Design → List TChange → Design × Nat × List String
  | d, [] => (d, 0, [])
  | d, c :: rest =>
    if env.changeRaises c then
      let r := applyChanges env d rest
      (r.1, r.2.1, c.name :: r.2.2)
    else
      let r := applyChanges env (applyOneChange env d c) rest
      (r.1, r.2.1 + 1, r.2.2)

/-- `_deferred_timeline_handler`: clear the slot first, apply the batch,
send the TIMELINE_OPERATION_RESULT message. -/
def _deferred_timeline_handler (env : HostEnv) (s : PluginState) :
    PluginState :=
  let op? := s.pendingTimelineOp
  let s := { s with pendingTimelineOp := none }
  match op? with
  | none => s
  | some op =>
    if op.action != "APPLY_TIMELINE_CHANGES" then s
    else
      match s.design? with
      | none => s
      | some d =>
        let r := applyChanges env d op.changes
        let failed := r.2.2
        let suffix := if failed.isEmpty then "" else s!" ({failed.length} failed)"
        let msg := s!"Applied {r.2.1} change(s)" ++ suffix
        let s := { s with design? := some r.1 }
        sendInfoToHTML env s (.timelineResult failed.isEmpty msg r.2.1 failed)

end entry

-- ═════════════════════════════════════════════════════════════════
-- Helper lemmas
-- ═════════════════════════════════════════════════════════════════

theorem itemByNameUP_append_right {ups : List UserParam} {n : String}
    (h : itemByNameUP ups n = none) (more : List UserParam) :
    itemByNameUP (ups ++ more) n = itemByNameUP more n := by
  unfold itemByNameUP at *
  rw [List.find?_append, h, Option.none_or]

theorem itemByNameUP_append_fp {ups : List UserParam}
    (h : itemByNameUP ups FINGERPRINT_PARAM = none) :
    itemByNameUP (ups ++ [fingerprintParam]) FINGERPRINT_PARAM
      = some fingerprintParam := by
  rw [itemByNameUP_append_right h]
  simp [itemByNameUP, List.find?, fingerprintParam]

-- ═════════════════════════════════════════════════════════════════
-- C10 — set_fingerprint is idempotent and touches nothing else
-- ═════════════════════════════════════════════════════════════════

/-- C10: `set_fingerprint` is idempotent on the design's user parameters:
when a user parameter named `FretboardFingerPrint` already exists the call
returns the design unchanged; calling it twice equals calling it once; and in
every case no user parameter other than `FretboardFingerPrint` is added or
changed (the non-fingerprint sublist is untouched, and every lookup of a
different name is unchanged). -/
theorem set_fingerprint_idempotent (o : Design → Bool) (d : Design) :
    (get_fingerprint d ≠ none → set_fingerprint o d = d) ∧
    set_fingerprint o (set_fingerprint o d) = set_fingerprint o d ∧
    (set_fingerprint o d).userParams.filter
        (fun p => p.name != FINGERPRINT_PARAM)
      = d.userParams.filter (fun p => p.name != FINGERPRINT_PARAM) ∧
    ∀ n, n ≠ FINGERPRINT_PARAM →
      itemByNameUP (set_fingerprint o d).userParams n
        = itemByNameUP d.userParams n := by
  refine ⟨?_, ?_, ?_, ?_⟩
  · intro h
    have hs : (itemByNameUP d.userParams FINGERPRINT_PARAM).isSome := by
      unfold get_fingerprint at h
      cases h' : itemByNameUP d.userParams FINGERPRINT_PARAM with
      | none => rw [h'] at h; simp at h
      | some _ => simp
    unfold set_fingerprint
    simp [hs]
  · by_cases h1 : (itemByNameUP d.userParams FINGERPRINT_PARAM).isSome
    · unfold set_fingerprint
      simp [h1]
    · by_cases h2 : o d = true
      · unfold set_fingerprint
        simp [h1, h2]
      · have hn : itemByNameUP d.userParams FINGERPRINT_PARAM = none :=
          Option.not_isSome_iff_eq_none.mp h1
        have step : set_fingerprint o d =
            { d with userParams := d.userParams ++ [fingerprintParam] } := by
          unfold set_fingerprint
          simp [h1, h2]
        rw [step]
        unfold set_fingerprint
        simp [itemByNameUP_append_fp hn]
  · by_cases h1 : (itemByNameUP d.userParams FINGERPRINT_PARAM).isSome
    · unfold set_fingerprint
      simp [h1]
    · by_cases h2 : o d = true
      · unfold set_fingerprint
        simp [h1, h2]
      · unfold set_fingerprint
        simp only [h1, h2]
        simp [List.filter_append, fingerprintParam]
  · intro n hn
    by_cases h1 : (itemByNameUP d.userParams FINGERPRINT_PARAM).isSome
    · unfold set_fingerprint
      simp [h1]
    · by_cases h2 : o d = true
      · unfold set_fingerprint
        simp [h1, h2]
      · unfold set_fingerprint
        simp only [h1, h2]
        simp only [Bool.false_eq_true, if_false, if_neg h1]
        unfold itemByNameUP
        rw [List.find?_append]
        have hne : (fingerprintParam.name == n) = false := by
          rw [beq_eq_false_iff_ne]
          intro h
          exact hn h.symm
        have : List.find? (fun p => p.name == n) [fingerprintParam] = none := by
          simp [List.find?, hne]
        rw [this, Option.or_none]

/-- Witness for C10 at a concrete design containing the fingerprint and a
concrete lookup name. -/
theorem set_fingerprint_idempotent_witness :
    set_fingerprint (fun _ => false)
        { userParams := [fingerprintParam], timeline := [] }
      = { userParams := [fingerprintParam], timeline := [] } ∧
    itemByNameUP (set_fingerprint (fun _ => false)
        { userParams := [], timeline := [] }).userParams "ScaleLength"
      = itemByNameUP ([] : List UserParam) "ScaleLength" :=
  ⟨(set_fingerprint_idempotent (fun _ => false)
      { userParams := [fingerprintParam], timeline := [] }).1 (by decide),
   (set_fingerprint_idempotent (fun _ => false)
      { userParams := [], timeline := [] }).2.2.2 "ScaleLength" (by decide)⟩

-- ═════════════════════════════════════════════════════════════════
-- Timeline lemmas
-- ═════════════════════════════════════════════════════════════════

namespace timeline_manager

theorem collectItems_take (env : TLEnv) :
    ∀ (t : List TLItem) (i : Nat),
      ∃ k, collectItems env true i t = (collectItems tlOk true i t).take k ∧
        (∀ j, j < k → env.readFails (i + j) = false) ∧
        (k = t.length ∨ env.readFails (i + k) = true) := by
  intro t
  induction t with
  | nil =>
    intro i
    exact ⟨0, by simp [collectItems], by omega, Or.inl rfl⟩
  | cons it rest ih =>
    intro i
    by_cases hr : env.readFails i = true
    · refine ⟨0, ?_, by omega, Or.inr (by simpa using hr)⟩
      simp [collectItems, hr]
    · obtain ⟨k, hk, hbefore, hafter⟩ := ih (i + 1)
      refine ⟨k + 1, ?_, ?_, ?_⟩
      · simp only [collectItems, hr, tlOk]
        simp [hk, tlOk]
      · intro j hj
        cases j with
        | zero => simpa using (Bool.not_eq_true _).mp hr
        | succ j' =>
          have := hbefore j' (by omega)
          have harith : i + 1 + j' = i + (j' + 1) := by omega
          rwa [harith] at this
      · rcases hafter with h | h
        · exact Or.inl (by simp [h])
        · right
          have harith : i + 1 + k = i + (k + 1) := by omega
          rwa [harith] at h

theorem collectItems_mem (t : List TLItem) :
    ∀ (i : Nat) (dct : ItemDict), dct ∈ collectItems tlOk true i t →
      ∃ j, ∃ hj : j < t.length, dct = mkItemDict (i + j) (t[j]) := by
  induction t with
  | nil => intro i dct h; simp [collectItems] at h
  | cons it rest ih =>
    intro i dct h
    simp only [collectItems, tlOk] at h
    simp at h
    rcases h with h | h
    · exact ⟨0, by simp, by simpa using h⟩
    · obtain ⟨j, hj, hd⟩ := ih (i + 1) dct h
      refine ⟨j + 1, by simpa using hj, ?_⟩
      have harith : i + 1 + j = i + (j + 1) := by omega
      rw [harith] at hd
      simpa using hd

/-- C6: the wrapper operations convert host exceptions into failure return
values instead of propagating them: with the item found at index `i` and the
suppression write raising there, `suppress_item`/`unsuppress_item` return
`False` and `toggle_item` returns `None`, each leaving the timeline
untouched; the same failure values result when the item is not found; and
`get_all_items` returns exactly the items collected before the first raising
read (all of them when no read raises). -/
theorem wrappers_catch_host_exceptions (env : TLEnv) (t : List TLItem)
    (n : String) :
    (∀ i, find_item_by_name env t n = some i → env.setFails i = true →
        suppress_item env t n = (false, t) ∧
        unsuppress_item env t n = (false, t) ∧
        toggle_item env t n = (none, t)) ∧
    (find_item_by_name env t n = none →
        suppress_item env t n = (false, t) ∧
        unsuppress_item env t n = (false, t) ∧
        toggle_item env t n = (none, t)) ∧
    (∃ k, get_all_items env t true = (get_all_items tlOk t true).take k ∧
        (∀ j, j < k → env.readFails j = false) ∧
        (k = t.length ∨ env.readFails k = true)) := by
  refine ⟨?_, ?_, ?_⟩
  · intro i hfind hfail
    refine ⟨?_, ?_, ?_⟩
    · unfold suppress_item
      rw [hfind]
      simp [_set_suppressed, hfail]
    · unfold unsuppress_item
      rw [hfind]
      simp [_set_suppressed, hfail]
    · unfold toggle_item
      rw [hfind]
      cases h : t[i]? with
      | none => simp [h]
      | some it => simp [h, _set_suppressed, hfail]
  · intro hfind
    refine ⟨?_, ?_, ?_⟩
    · unfold suppress_item
      rw [hfind]
    · unfold unsuppress_item
      rw [hfind]
    · unfold toggle_item
      rw [hfind]
  · obtain ⟨k, hk, hb, ha⟩ := collectItems_take env t 0
    exact ⟨k, by simpa [get_all_items] using hk,
      by simpa using hb, by simpa using ha⟩

/-- Witness for C6: a two-feature timeline whose host raises on writing item
0 and on reading item 1. -/
theorem wrappers_catch_host_exceptions_witness :
    suppress_item
        { readFails := fun j => j == 1, setFails := fun j => j == 0 }
        [{ name := "A", isGroup := false, suppressed := false, childIdxs := [] },
         { name := "B", isGroup := false, suppressed := false, childIdxs := [] }]
        "A"
      = (false,
         [{ name := "A", isGroup := false, suppressed := false, childIdxs := [] },
          { name := "B", isGroup := false, suppressed := false, childIdxs := [] }]) ∧
    toggle_item
        { readFails := fun j => j == 1, setFails := fun j => j == 0 }
        [{ name := "A", isGroup := false, suppressed := false, childIdxs := [] },
         { name := "B", isGroup := false, suppressed := false, childIdxs := [] }]
        "A"
      = (none,
         [{ name := "A", isGroup := false, suppressed := false, childIdxs := [] },
          { name := "B", isGroup := false, suppressed := false, childIdxs := [] }]) := by
  have h := (wrappers_catch_host_exceptions
    { readFails := fun j => j == 1, setFails := fun j => j == 0 }
    [{ name := "A", isGroup := false, suppressed := false, childIdxs := [] },
     { name := "B", isGroup := false, suppressed := false, childIdxs := [] }]
    "A").1 0 (by decide) (by decide)
  exact ⟨h.1, h.2.2⟩

end timeline_manager

-- ═════════════════════════════════════════════════════════════════
-- C5 — toggle_timeline_item
-- ═════════════════════════════════════════════════════════════════

namespace timeline_manager

theorem name_ne_of_nodup {t : List TLItem}
    (hnd : (t.map (fun it => it.name)).Nodup) {i j : Nat}
    (hi : i < t.length) (hj : j < t.length) (hij : i ≠ j) :
    (t[i]).name ≠ (t[j]).name := by
  intro he
  have hi' : i < (t.map (fun it => it.name)).length := by simpa using hi
  have hj' : j < (t.map (fun it => it.name)).length := by simpa using hj
  have hmap : (t.map (fun it => it.name))[i]
      = (t.map (fun it => it.name))[j] := by
    simpa [List.getElem_map] using he
  exact hij (hnd.getElem_inj_iff.mp hmap)

theorem find_collect {n : String} :
    ∀ (t : List TLItem) (i0 i : Nat) (hi : i < t.length),
      (t[i]).name = n →
      (∀ j (hj : j < t.length), j < i → (t[j]).name ≠ n) →
      (collectItems tlOk true i0 t).find? (fun dct => dct.name == n)
        = some (mkItemDict (i0 + i) (t[i])) := by
  intro t
  induction t with
  | nil =>
    intro i0 i hi
    exact absurd hi (by simp)
  | cons it rest ih =>
    intro i0 i hi hname hmin
    have hcol : collectItems tlOk true i0 (it :: rest)
        = mkItemDict i0 it :: collectItems tlOk true (i0 + 1) rest := by
      simp [collectItems, tlOk]
    cases i with
    | zero =>
      simp only [List.getElem_cons_zero] at hname
      have hpred : ((mkItemDict i0 it).name == n) = true := by
        simp [mkItemDict, hname]
      rw [hcol, List.find?_cons_of_pos (p := fun dct : ItemDict => dct.name == n) _ hpred]
      simp [List.getElem_cons_zero]
    | succ i' =>
      have hhead : it.name ≠ n := by
        have := hmin 0 (by simp) (by omega)
        simpa using this
      have hpred : ((mkItemDict i0 it).name == n) = false := by
        rw [beq_eq_false_iff_ne]
        simpa [mkItemDict] using hhead
      have hi' : i' < rest.length := by simpa using hi
      have hname' : (rest[i']).name = n := by
        simpa [List.getElem_cons_succ] using hname
      have hmin' : ∀ j (hj : j < rest.length), j < i' →
          (rest[j]).name ≠ n := by
        intro j hj hji
        have := hmin (j + 1) (by simpa using hj) (by omega)
        simpa [List.getElem_cons_succ] using this
      rw [hcol,
        List.find?_cons_of_neg (p := fun dct : ItemDict => dct.name == n) _
          (by simp [hpred]),
        ih (i0 + 1) i' hi' hname' hmin']
      have harith : i0 + 1 + i' = i0 + (i' + 1) := by omega
      rw [harith]
      simp [List.getElem_cons_succ]

theorem find_item_by_name_nodup {t : List TLItem} {n : String}
    (hnd : (t.map (fun it => it.name)).Nodup) {i : Nat} (hi : i < t.length)
    (hname : (t[i]).name = n) :
    find_item_by_name tlOk t n = some i := by
  have hmin : ∀ j (hj : j < t.length), j ≠ i → (t[j]).name ≠ n := by
    intro j hj hji he
    exact (name_ne_of_nodup hnd hj hi hji) (he.trans hname.symm)
  by_cases hg : (t[i]).isGroup
  · have hnone : itemByNameTL t n = none := by
      unfold itemByNameTL
      rw [List.findIdx?_eq_none_iff]
      intro x hx
      obtain ⟨j, hj, hxj⟩ := List.mem_iff_getElem.mp hx
      subst hxj
      by_cases hji : j = i
      · subst hji
        simp [hg]
      · have := hmin j hj hji
        simp [beq_eq_false_iff_ne.mpr this]
    unfold find_item_by_name
    rw [hnone]
    have hfc := find_collect (n := n) t 0 i hi hname
      (fun j hj hji => hmin j hj (by omega))
    simp only [get_all_items]
    rw [hfc]
    simp [mkItemDict]
  · have hsome : itemByNameTL t n = some i := by
      unfold itemByNameTL
      rw [List.findIdx?_eq_some_iff_getElem]
      refine ⟨hi, by simp [hname, hg], ?_⟩
      intro j hji
      have hj : j < t.length := by omega
      have := hmin j hj (by omega)
      simp [beq_eq_false_iff_ne.mpr this]
    unfold find_item_by_name
    rw [hsome]

theorem find_item_by_name_none {t : List TLItem} {n : String}
    (h : ∀ it ∈ t, it.name ≠ n) :
    find_item_by_name tlOk t n = none := by
  have h1 : itemByNameTL t n = none := by
    unfold itemByNameTL
    rw [List.findIdx?_eq_none_iff]
    intro x hx
    simp [beq_eq_false_iff_ne.mpr (h x hx)]
  have h2 : (get_all_items tlOk t true).find? (fun dct => dct.name == n)
      = none := by
    rw [List.find?_eq_none]
    intro dct hd
    obtain ⟨j, hj, hdj⟩ := collectItems_mem t 0 dct hd
    subst hdj
    have : (t[j]) ∈ t := List.getElem_mem hj
    simp [mkItemDict, beq_eq_false_iff_ne.mpr (h _ this)]
  unfold find_item_by_name
  rw [h1, h2]
  rfl

end timeline_manager

/-- C5: `toggle_timeline_item` on a timeline with distinct item names: when
no item bears the requested name it reports failure with `newState = None`
and changes nothing; when item `i` bears the name it reports success with
`newState` the negation of that item's previous suppressed flag, the item's
flag afterwards equals `newState`, and every other timeline item (and the
parameter list) is untouched. -/
theorem toggle_timeline_item_spec (d : Design) (n : String)
    (hnd : (d.timeline.map (fun it => it.name)).Nodup) :
    ((∀ it ∈ d.timeline, it.name ≠ n) →
        (parameter_bridge.toggle_timeline_item tlOk d n).1.success = false ∧
        (parameter_bridge.toggle_timeline_item tlOk d n).1.newState = none ∧
        (parameter_bridge.toggle_timeline_item tlOk d n).2 = d) ∧
    (∀ i (hi : i < d.timeline.length), (d.timeline[i]).name = n →
        (parameter_bridge.toggle_timeline_item tlOk d n).1.success = true ∧
        (parameter_bridge.toggle_timeline_item tlOk d n).1.newState
          = some (!(d.timeline[i]).suppressed) ∧
        ((parameter_bridge.toggle_timeline_item tlOk d n).2.timeline[i]?).map
            (fun it => it.suppressed)
          = some (!(d.timeline[i]).suppressed) ∧
        (∀ j, j ≠ i →
          (parameter_bridge.toggle_timeline_item tlOk d n).2.timeline[j]?
            = d.timeline[j]?) ∧
        (parameter_bridge.toggle_timeline_item tlOk d n).2.userParams
          = d.userParams) := by
  constructor
  · intro h
    have hfind := timeline_manager.find_item_by_name_none (t := d.timeline) h
    have htog : timeline_manager.toggle_item tlOk d.timeline n
        = (none, d.timeline) := by
      unfold timeline_manager.toggle_item
      rw [hfind]
    unfold parameter_bridge.toggle_timeline_item
    rw [htog]
    exact ⟨rfl, rfl, rfl⟩
  · intro i hi hname
    have hfind := timeline_manager.find_item_by_name_nodup hnd hi hname
    have hget : d.timeline[i]? = some (d.timeline[i]) :=
      List.getElem?_eq_getElem hi
    have htog : timeline_manager.toggle_item tlOk d.timeline n
        = (some (!(d.timeline[i]).suppressed),
           timeline_manager.setSuppressedAt d.timeline i
             (!(d.timeline[i]).suppressed)) := by
      unfold timeline_manager.toggle_item
      rw [hfind]
      simp [hget, timeline_manager._set_suppressed, tlOk]
    unfold parameter_bridge.toggle_timeline_item
    rw [htog]
    refine ⟨rfl, rfl, ?_, ?_, rfl⟩
    · simp only [timeline_manager.setSuppressedAt, hget]
      rw [List.getElem?_set_self (by simpa using hi)]
      rfl
    · intro j hj
      simp only [timeline_manager.setSuppressedAt, hget]
      exact List.getElem?_set_ne (fun he => hj he.symm)

/-- Witness for C5: both branches at a concrete two-item timeline. -/
theorem toggle_timeline_item_spec_witness :
    (parameter_bridge.toggle_timeline_item tlOk
        { userParams := []
          timeline :=
            [{ name := "Fret Slots", isGroup := false, suppressed := false,
               childIdxs := [] },
             { name := "Inlays", isGroup := true, suppressed := true,
               childIdxs := [] }] }
        "Inlays").1.newState = some false ∧
    (parameter_bridge.toggle_timeline_item tlOk
        { userParams := []
          timeline :=
            [{ name := "Fret Slots", isGroup := false, suppressed := false,
               childIdxs := [] },
             { name := "Inlays", isGroup := true, suppressed := true,
               childIdxs := [] }] }
        "Nut").1.success = false := by
  constructor
  · have h := (toggle_timeline_item_spec
      { userParams := []
        timeline :=
          [{ name := "Fret Slots", isGroup := false, suppressed := false,
             childIdxs := [] },
           { name := "Inlays", isGroup := true, suppressed := true,
             childIdxs := [] }] }
      "Inlays" (by decide)).2 1 (by decide) (by decide)
    simpa using h.2.1
  · exact ((toggle_timeline_item_spec
      { userParams := []
        timeline :=
          [{ name := "Fret Slots", isGroup := false, suppressed := false,
             childIdxs := [] },
           { name := "Inlays", isGroup := true, suppressed := true,
             childIdxs := [] }] }
      "Nut" (by decide)).1 (by decide)).1

-- ═════════════════════════════════════════════════════════════════
-- C7 — suppress_group_with_contents / unsuppress_group_with_contents
-- ═════════════════════════════════════════════════════════════════

namespace timeline_manager

/-- Structural view of a timeline item: everything except the suppression
flag. -/
def stripS (it : TLItem) : String × Bool × List Nat :=
  (it.name, it.isGroup, it.childIdxs)

/-- `t'` has the same structure as `t`: same length and, position by
position, the same name, kind and group membership (only suppression flags
may differ). -/
def SameStruct (t t' : List TLItem) : Prop :=
  t'.length = t.length ∧
  ∀ j : Nat, (t'[j]?).map stripS = (t[j]?).map stripS

theorem sameStruct_refl (t : List TLItem) : SameStruct t t :=
  ⟨rfl, fun _ => rfl⟩

theorem sameStruct_trans {a b c : List TLItem}
    (h1 : SameStruct a b) (h2 : SameStruct b c) : SameStruct a c :=
  ⟨h2.1.trans h1.1, fun j => (h2.2 j).trans (h1.2 j)⟩

theorem sameStruct_getElem {t t' : List TLItem} (h : SameStruct t t')
    {j : Nat} (hj : j < t.length) :
    ∃ hj' : j < t'.length, stripS (t'[j]) = stripS (t[j]) := by
  have hj' : j < t'.length := by rw [h.1]; exact hj
  refine ⟨hj', ?_⟩
  have hmap := h.2 j
  rw [List.getElem?_eq_getElem hj, List.getElem?_eq_getElem hj'] at hmap
  simpa using hmap

theorem setSuppressedAt_sameStruct (t : List TLItem) (i : Nat) (b : Bool) :
    SameStruct t (setSuppressedAt t i b) := by
  unfold setSuppressedAt
  cases h : t[i]? with
  | none => exact sameStruct_refl t
  | some it =>
    have hlt : i < t.length := by
      by_contra hge
      rw [List.getElem?_eq_none (by omega)] at h
      exact Option.noConfusion h
    constructor
    · simp
    · intro j
      by_cases hij : i = j
      · subst hij
        rw [List.getElem?_set_self hlt, List.getElem?_eq_getElem hlt]
        have : t[i] = it := by
          have := List.getElem?_eq_getElem hlt
          rw [h] at this
          exact (Option.some.injEq _ _).mp this.symm
        simp [this, stripS]
      · rw [List.getElem?_set_ne hij]

theorem setChildren_sameStruct (env : TLEnv) (b : Bool) :
    ∀ (items : List ItemDict) (t : List TLItem),
      SameStruct t (setChildren env b t items).2 := by
  intro items
  induction items with
  | nil => intro t; exact sameStruct_refl t
  | cons dct rest ih =>
    intro t
    unfold setChildren
    cases h : _set_suppressed env t dct.index b with
    | none => exact ih t
    | some t' =>
      have h1 : SameStruct t t' := by
        unfold _set_suppressed at h
        by_cases hf : env.setFails dct.index = true
        · rw [if_pos hf] at h; exact Option.noConfusion h
        · rw [if_neg hf] at h
          have := (Option.some.injEq _ _).mp h
          rw [← this]
          exact setSuppressedAt_sameStruct t dct.index b
      exact sameStruct_trans h1 (ih t')

theorem suppress_item_found (env : TLEnv) (t : List TLItem) (n : String)
    (i : Nat) (hfi : find_item_by_name env t n = some i) :
    suppress_item env t n
      = match _set_suppressed env t i true with
        | none => (false, t)
        | some t' => (true, t') := by
  unfold suppress_item
  rw [hfi]

theorem unsuppress_item_found (env : TLEnv) (t : List TLItem) (n : String)
    (i : Nat) (hfi : find_item_by_name env t n = some i) :
    unsuppress_item env t n
      = match _set_suppressed env t i false with
        | none => (false, t)
        | some t' => (true, t') := by
  unfold unsuppress_item
  rw [hfi]

theorem suppress_item_notfound (env : TLEnv) (t : List TLItem) (n : String)
    (hfi : find_item_by_name env t n = none) :
    suppress_item env t n = (false, t) := by
  unfold suppress_item
  rw [hfi]

theorem unsuppress_item_notfound (env : TLEnv) (t : List TLItem) (n : String)
    (hfi : find_item_by_name env t n = none) :
    unsuppress_item env t n = (false, t) := by
  unfold unsuppress_item
  rw [hfi]

theorem _set_suppressed_some {env : TLEnv} {t t' : List TLItem} {i : Nat}
    {b : Bool} (h : _set_suppressed env t i b = some t') :
    t' = setSuppressedAt t i b := by
  unfold _set_suppressed at h
  by_cases hf : env.setFails i = true
  · rw [if_pos hf] at h; exact Option.noConfusion h
  · rw [if_neg hf] at h
    exact ((Option.some.injEq _ _).mp h).symm

theorem suppress_item_snd_sameStruct (env : TLEnv) (t : List TLItem)
    (n : String) : SameStruct t (suppress_item env t n).2 := by
  cases hfi : find_item_by_name env t n with
  | none =>
    rw [suppress_item_notfound env t n hfi]
    exact sameStruct_refl t
  | some i =>
    rw [suppress_item_found env t n i hfi]
    cases h : _set_suppressed env t i true with
    | none => exact sameStruct_refl t
    | some t' =>
      rw [_set_suppressed_some h]
      exact setSuppressedAt_sameStruct t i true

theorem unsuppress_item_snd_sameStruct (env : TLEnv) (t : List TLItem)
    (n : String) : SameStruct t (unsuppress_item env t n).2 := by
  cases hfi : find_item_by_name env t n with
  | none =>
    rw [unsuppress_item_notfound env t n hfi]
    exact sameStruct_refl t
  | some i =>
    rw [unsuppress_item_found env t n i hfi]
    cases h : _set_suppressed env t i false with
    | none => exact sameStruct_refl t
    | some t' =>
      rw [_set_suppressed_some h]
      exact setSuppressedAt_sameStruct t i false

theorem suppress_item_fail_snd (env : TLEnv) (t : List TLItem) (n : String)
    (h : (suppress_item env t n).1 = false) :
    (suppress_item env t n).2 = t := by
  cases hfi : find_item_by_name env t n with
  | none => rw [suppress_item_notfound env t n hfi]
  | some i =>
    rw [suppress_item_found env t n i hfi] at h ⊢
    cases hs : _set_suppressed env t i true with
    | none => rfl
    | some t' => rw [hs] at h; exact absurd h (by simp)

theorem unsuppress_item_fail_snd (env : TLEnv) (t : List TLItem) (n : String)
    (h : (unsuppress_item env t n).1 = false) :
    (unsuppress_item env t n).2 = t := by
  cases hfi : find_item_by_name env t n with
  | none => rw [unsuppress_item_notfound env t n hfi]
  | some i =>
    rw [unsuppress_item_found env t n i hfi] at h ⊢
    cases hs : _set_suppressed env t i false with
    | none => rfl
    | some t' => rw [hs] at h; exact absurd h (by simp)

theorem filterMap_length_congr {α β : Type} {f g : α → Option β} :
    ∀ l : List α, (∀ x ∈ l, (f x).isSome = (g x).isSome) →
      (l.filterMap f).length = (l.filterMap g).length := by
  intro l
  induction l with
  | nil => intro _; rfl
  | cons x xs ih =>
    intro h
    have hx := h x (by simp)
    simp only [List.filterMap_cons]
    cases hf : f x with
    | none =>
      have hg : g x = none := by
        rw [hf] at hx
        simp at hx
        exact Option.not_isSome_iff_eq_none.mp (by simp [← hx])
      rw [hg]
      exact ih (fun y hy => h y (by simp [hy]))
    | some b =>
      have hg : (g x).isSome := by rw [hf] at hx; simp [← hx]
      obtain ⟨b', hg'⟩ := Option.isSome_iff_exists.mp hg
      rw [hg']
      simp only [List.length_cons]
      rw [ih (fun y hy => h y (by simp [hy]))]

theorem get_group_items_notfound (t : List TLItem) (g : String)
    (hidx : t.findIdx? (fun it => it.isGroup && it.name == g) = none) :
    get_group_items t g = [] := by
  unfold get_group_items
  rw [hidx]

theorem get_group_items_found (t : List TLItem) (g : String) (gi : Nat)
    (hidx : t.findIdx? (fun it => it.isGroup && it.name == g) = some gi) :
    get_group_items t g
      = match t[gi]? with
        | none => []
        | some grp =>
          grp.childIdxs.filterMap
            (fun ci => (t[ci]?).map (fun c => mkItemDict ci c)) := by
  unfold get_group_items
  rw [hidx]

theorem get_group_items_length_sameStruct {t t' : List TLItem}
    (h : SameStruct t t') (g : String) :
    (get_group_items t' g).length = (get_group_items t g).length := by
  have hfind : t'.findIdx? (fun it => it.isGroup && it.name == g)
      = t.findIdx? (fun it => it.isGroup && it.name == g) := by
    cases h0 : List.findIdx? (fun it => it.isGroup && it.name == g) t with
    | none =>
      rw [List.findIdx?_eq_none_iff] at h0 ⊢
      intro x hx
      obtain ⟨j, hj', hxj⟩ := List.mem_iff_getElem.mp hx
      subst hxj
      have hj : j < t.length := by rw [← h.1]; exact hj'
      obtain ⟨hj2, hs⟩ := sameStruct_getElem h hj
      have hname : (t'[j]).name = (t[j]).name :=
        congrArg (fun s => s.1) hs
      have hgrp : (t'[j]).isGroup = (t[j]).isGroup :=
        congrArg (fun s => s.2.1) hs
      rw [hname, hgrp]
      exact h0 _ (List.getElem_mem hj)
    | some gi =>
      rw [List.findIdx?_eq_some_iff_getElem] at h0 ⊢
      obtain ⟨hgi, hp, hmin⟩ := h0
      have hgi' : gi < t'.length := by rw [h.1]; exact hgi
      obtain ⟨_, hs⟩ := sameStruct_getElem h hgi
      refine ⟨hgi', ?_, ?_⟩
      · have hname : (t'[gi]).name = (t[gi]).name :=
          congrArg (fun s => s.1) hs
        have hgrp : (t'[gi]).isGroup = (t[gi]).isGroup :=
          congrArg (fun s => s.2.1) hs
        rw [hname, hgrp]
        exact hp
      · intro j hji
        have hj' : j < t'.length := by omega
        have hj : j < t.length := by rw [← h.1]; exact hj'
        obtain ⟨_, hsj⟩ := sameStruct_getElem h hj
        have hname : (t'[j]).name = (t[j]).name :=
          congrArg (fun s => s.1) hsj
        have hgrp : (t'[j]).isGroup = (t[j]).isGroup :=
          congrArg (fun s => s.2.1) hsj
        rw [hname, hgrp]
        exact hmin j hji
  cases hidx : List.findIdx? (fun it => it.isGroup && it.name == g) t with
  | none =>
    rw [get_group_items_notfound t g hidx,
      get_group_items_notfound t' g (hfind.trans hidx)]
  | some gi =>
    rw [get_group_items_found t g gi hidx,
      get_group_items_found t' g gi (hfind.trans hidx)]
    cases hgt : t[gi]? with
    | none =>
      have hgt' : t'[gi]? = none := by
        have hmap := h.2 gi
        rw [hgt] at hmap
        simpa using hmap
      rw [hgt']
    | some grp =>
      have hex : ∃ grp', t'[gi]? = some grp' ∧ stripS grp' = stripS grp := by
        have hmap := h.2 gi
        rw [hgt] at hmap
        cases hg2 : t'[gi]? with
        | none => rw [hg2] at hmap; exact absurd hmap (by simp)
        | some grp' =>
          rw [hg2] at hmap
          exact ⟨grp', rfl, by simpa using hmap⟩
      obtain ⟨grp', hsome', hstrip⟩ := hex
      rw [hsome']
      have hchild : grp'.childIdxs = grp.childIdxs :=
        congrArg (fun s => s.2.2) hstrip
      show (grp'.childIdxs.filterMap
              (fun ci => (t'[ci]?).map (fun c => mkItemDict ci c))).length
          = (grp.childIdxs.filterMap
              (fun ci => (t[ci]?).map (fun c => mkItemDict ci c))).length
      rw [hchild]
      apply filterMap_length_congr
      intro ci _
      have h1 : (t'[ci]?).isSome = (t[ci]?).isSome := by
        by_cases hci : ci < t.length
        · have hci' : ci < t'.length := by rw [h.1]; exact hci
          rw [List.getElem?_eq_getElem hci, List.getElem?_eq_getElem hci']
          rfl
        · have hci' : ¬ ci < t'.length := by rw [h.1]; exact hci
          rw [List.getElem?_eq_none (by omega), List.getElem?_eq_none (by omega)]
      simp [Option.isSome_map, h1]

theorem suppress_group_with_contents_snd_sameStruct (env : TLEnv)
    (t : List TLItem) (g : String) :
    SameStruct t (suppress_group_with_contents env t g).2 := by
  unfold suppress_group_with_contents
  by_cases h : (suppress_item env t g).1 = true
  · simp only [h]
    exact sameStruct_trans (suppress_item_snd_sameStruct env t g)
      (setChildren_sameStruct env true _ _)
  · have hf : (suppress_item env t g).1 = false := by
      cases hb : (suppress_item env t g).1
      · rfl
      · exact absurd hb h
    simp only [hf]
    rw [suppress_item_fail_snd env t g hf]
    exact sameStruct_refl t

theorem unsuppress_group_with_contents_snd_sameStruct (env : TLEnv)
    (t : List TLItem) (g : String) :
    SameStruct t (unsuppress_group_with_contents env t g).2 := by
  unfold unsuppress_group_with_contents
  by_cases h : (unsuppress_item env t g).1 = true
  · simp only [h]
    exact sameStruct_trans (unsuppress_item_snd_sameStruct env t g)
      (setChildren_sameStruct env false _ _)
  · have hf : (unsuppress_item env t g).1 = false := by
      cases hb : (unsuppress_item env t g).1
      · rfl
      · exact absurd hb h
    simp only [hf]
    rw [unsuppress_item_fail_snd env t g hf]
    exact sameStruct_refl t

theorem sgwc_fst (env : TLEnv) (t : List TLItem) (g : String) :
    (suppress_group_with_contents env t g).1 = (suppress_item env t g).1 := by
  unfold suppress_group_with_contents
  cases hb : (suppress_item env t g).1 <;> simp [hb]

theorem unsgwc_fst (env : TLEnv) (t : List TLItem) (g : String) :
    (unsuppress_group_with_contents env t g).1
      = (unsuppress_item env t g).1 := by
  unfold unsuppress_group_with_contents
  cases hb : (unsuppress_item env t g).1 <;> simp [hb]

theorem sgwc_snd_fail (env : TLEnv) (t : List TLItem) (g : String)
    (h : (suppress_item env t g).1 = false) :
    (suppress_group_with_contents env t g).2 = t := by
  unfold suppress_group_with_contents
  simp [h, suppress_item_fail_snd env t g h]

theorem unsgwc_snd_fail (env : TLEnv) (t : List TLItem) (g : String)
    (h : (unsuppress_item env t g).1 = false) :
    (unsuppress_group_with_contents env t g).2 = t := by
  unfold unsuppress_group_with_contents
  simp [h, unsuppress_item_fail_snd env t g h]

end timeline_manager

/-- C7: `parameter_bridge.suppress_group_with_contents` (and symmetrically
`unsuppress_group_with_contents`) returns success `False` with
`itemsAffected = 0` when the group itself cannot be (un)suppressed — leaving
the design untouched — and on success returns `itemsAffected` equal to the
number of items inside the group plus one for the group itself, the count
being taken from `get_group_items` on the named group (whose size the
suppression pass does not change, so it also equals the pre-call group
size plus one). -/
theorem group_with_contents_spec (env : TLEnv) (d : Design) (g : String) :
    ((timeline_manager.suppress_group_with_contents env d.timeline g).1
        = false →
      (parameter_bridge.suppress_group_with_contents env d g).1.success
          = false ∧
      (parameter_bridge.suppress_group_with_contents env d g).1.itemsAffected
          = 0 ∧
      (parameter_bridge.suppress_group_with_contents env d g).2 = d) ∧
    ((timeline_manager.suppress_group_with_contents env d.timeline g).1
        = true →
      (parameter_bridge.suppress_group_with_contents env d g).1.success
          = true ∧
      (parameter_bridge.suppress_group_with_contents env d g).1.itemsAffected
          = (timeline_manager.get_group_items
              (parameter_bridge.suppress_group_with_contents env d g).2.timeline
              g).length + 1 ∧
      (parameter_bridge.suppress_group_with_contents env d g).1.itemsAffected
          = (timeline_manager.get_group_items d.timeline g).length + 1) ∧
    ((timeline_manager.unsuppress_group_with_contents env d.timeline g).1
        = false →
      (parameter_bridge.unsuppress_group_with_contents env d g).1.success
          = false ∧
      (parameter_bridge.unsuppress_group_with_contents env d g).1.itemsAffected
          = 0 ∧
      (parameter_bridge.unsuppress_group_with_contents env d g).2 = d) ∧
    ((timeline_manager.unsuppress_group_with_contents env d.timeline g).1
        = true →
      (parameter_bridge.unsuppress_group_with_contents env d g).1.success
          = true ∧
      (parameter_bridge.unsuppress_group_with_contents env d g).1.itemsAffected
          = (timeline_manager.get_group_items
              (parameter_bridge.unsuppress_group_with_contents env d g).2.timeline
              g).length + 1 ∧
      (parameter_bridge.unsuppress_group_with_contents env d g).1.itemsAffected
          = (timeline_manager.get_group_items d.timeline g).length + 1) := by
  refine ⟨?_, ?_, ?_, ?_⟩
  · intro hfail
    have hsif : (timeline_manager.suppress_item env d.timeline g).1 = false := by
      rw [← timeline_manager.sgwc_fst]; exact hfail
    have hsnd := timeline_manager.sgwc_snd_fail env d.timeline g hsif
    unfold parameter_bridge.suppress_group_with_contents
    simp only [hfail, hsnd]
    refine ⟨rfl, rfl, rfl⟩
  · intro hsucc
    have hsame :=
      timeline_manager.suppress_group_with_contents_snd_sameStruct
        env d.timeline g
    have hlen := timeline_manager.get_group_items_length_sameStruct hsame g
    unfold parameter_bridge.suppress_group_with_contents
    simp only [hsucc]
    refine ⟨rfl, rfl, ?_⟩
    simp only [Bool.not_true, Bool.false_eq_true, if_false]
    rw [hlen]
  · intro hfail
    have hsif : (timeline_manager.unsuppress_item env d.timeline g).1
        = false := by
      rw [← timeline_manager.unsgwc_fst]; exact hfail
    have hsnd := timeline_manager.unsgwc_snd_fail env d.timeline g hsif
    unfold parameter_bridge.unsuppress_group_with_contents
    simp only [hfail, hsnd]
    refine ⟨rfl, rfl, rfl⟩
  · intro hsucc
    have hsame :=
      timeline_manager.unsuppress_group_with_contents_snd_sameStruct
        env d.timeline g
    have hlen := timeline_manager.get_group_items_length_sameStruct hsame g
    unfold parameter_bridge.unsuppress_group_with_contents
    simp only [hsucc]
    refine ⟨rfl, rfl, ?_⟩
    simp only [Bool.not_true, Bool.false_eq_true, if_false]
    rw [hlen]

/-- Witness for C7: a one-group timeline (group `Body` containing one
feature), success and failure branches. -/
theorem group_with_contents_spec_witness :
    (parameter_bridge.suppress_group_with_contents tlOk
        { userParams := []
          timeline :=
            [{ name := "Body", isGroup := true, suppressed := false,
               childIdxs := [1] },
             { name := "Cut", isGroup := false, suppressed := false,
               childIdxs := [] }] }
        "Body").1.itemsAffected
      = (timeline_manager.get_group_items
          [{ name := "Body", isGroup := true, suppressed := false,
             childIdxs := [1] },
           { name := "Cut", isGroup := false, suppressed := false,
             childIdxs := [] }] "Body").length + 1 ∧
    (parameter_bridge.unsuppress_group_with_contents tlOk
        { userParams := []
          timeline :=
            [{ name := "Body", isGroup := true, suppressed := false,
               childIdxs := [1] },
             { name := "Cut", isGroup := false, suppressed := false,
               childIdxs := [] }] }
        "Missing").1.itemsAffected = 0 := by
  constructor
  · exact ((group_with_contents_spec tlOk
      { userParams := []
        timeline :=
          [{ name := "Body", isGroup := true, suppressed := false,
             childIdxs := [1] },
           { name := "Cut", isGroup := false, suppressed := false,
             childIdxs := [] }] }
      "Body").2.1 (by decide)).2.2
  · exact ((group_with_contents_spec tlOk
      { userParams := []
        timeline :=
          [{ name := "Body", isGroup := true, suppressed := false,
             childIdxs := [1] },
           { name := "Cut", isGroup := false, suppressed := false,
             childIdxs := [] }] }
      "Missing").2.2.1 (by decide)).2.1

-- ═════════════════════════════════════════════════════════════════
-- C4 — _on_save_template
-- ═════════════════════════════════════════════════════════════════

namespace entry

/-- The template dict `_on_save_template` assembles from the message. -/
def savedTemplate (today : String) (m : SaveMsg) : Template :=
  { name := pyStrip (m.name?.getD "")
    description := m.description?.getD ""
    createdAt := today
    schemaVersion := m.schemaVersion?.getD "0.3.0"
    parameters := m.parameters?.getD [] }

theorem isUpper_toLower (c : Char) : (Char.toLower c).isUpper = false := by
  unfold Char.toLower
  by_cases h : c.toNat ≥ 65 ∧ c.toNat ≤ 90
  · rw [if_pos h]
    have hvalid : (c.toNat + 32).isValidChar := Or.inl (by omega)
    have htn : (Char.ofNat (c.toNat + 32)).toNat = c.toNat + 32 := by
      unfold Char.ofNat
      rw [dif_pos hvalid]
      rfl
    unfold Char.isUpper
    have h90 : ¬ ((Char.ofNat (c.toNat + 32)).val ≤ 90) := by
      show ¬ ((Char.ofNat (c.toNat + 32)).val.toNat ≤ (90 : UInt32).toNat)
      have hv : (Char.ofNat (c.toNat + 32)).val.toNat = c.toNat + 32 := htn
      rw [hv]
      show ¬ (c.toNat + 32 ≤ 90)
      omega
    simp [h90]
  · rw [if_neg h]
    unfold Char.isUpper
    rcases Nat.lt_or_ge c.toNat 65 with hlt | hge
    · have h65 : ¬ ((65 : UInt32) ≤ c.val) := by
        show ¬ ((65 : UInt32).toNat ≤ c.val.toNat)
        show ¬ (65 ≤ c.toNat)
        omega
      simp [h65]
    · have h90 : ¬ (c.toNat ≤ 90) := fun hle => h ⟨hge, hle⟩
      have h90' : ¬ (c.val ≤ (90 : UInt32)) := by
        show ¬ (c.val.toNat ≤ (90 : UInt32).toNat)
        show ¬ (c.toNat ≤ 90)
        omega
      simp [h90']

theorem slugFilter_chars (s : List Char) :
    ∀ c ∈ slugFilter s,
      (isWordChar c || isSpaceHyphen c) = true ∧ c.isUpper = false := by
  intro c hc
  unfold slugFilter at hc
  rw [List.mem_filter] at hc
  obtain ⟨hmem, hpred⟩ := hc
  refine ⟨hpred, ?_⟩
  rw [List.mem_map] at hmem
  obtain ⟨x, _, hx⟩ := hmem
  rw [← hx]
  exact isUpper_toLower x

theorem collapseRuns_chars :
    ∀ (s : List Char) (b : Bool) (c : Char), c ∈ collapseRuns b s →
      c = '_' ∨ (c ∈ s ∧ isSpaceHyphen c = false) := by
  intro s
  induction s with
  | nil => intro b c hc; simp [collapseRuns] at hc
  | cons a rest ih =>
    intro b c hc
    unfold collapseRuns at hc
    by_cases ha : isSpaceHyphen a = true
    · rw [if_pos ha] at hc
      by_cases hb : b = true
      · rw [if_pos hb] at hc
        rcases ih true c hc with h | ⟨hm, hs⟩
        · exact Or.inl h
        · exact Or.inr ⟨by simp [hm], hs⟩
      · rw [if_neg hb] at hc
        rcases List.mem_cons.mp hc with h | h
        · exact Or.inl h
        · rcases ih true c h with h' | ⟨hm, hs⟩
          · exact Or.inl h'
          · exact Or.inr ⟨by simp [hm], hs⟩
    · rw [if_neg ha] at hc
      rcases List.mem_cons.mp hc with h | h
      · subst h
        exact Or.inr ⟨by simp, by simpa using ha⟩
      · rcases ih false c h with h' | ⟨hm, hs⟩
        · exact Or.inl h'
        · exact Or.inr ⟨by simp [hm], hs⟩

theorem stripUnderscores_mem (s : List Char) :
    ∀ c ∈ stripUnderscores s, c ∈ s := by
  intro c hc
  unfold stripUnderscores at hc
  rw [List.mem_reverse] at hc
  have h1 := (List.dropWhile_sublist (l := (s.dropWhile (· == '_')).reverse)
    (p := (· == '_'))).mem hc
  rw [List.mem_reverse] at h1
  exact (List.dropWhile_sublist (p := (· == '_'))).mem h1

theorem slugify_chars (nm : String) :
    ∀ c ∈ (slugify nm).data, (isWordChar c && !c.isUpper) = true := by
  intro c hc
  unfold slugify at hc
  by_cases he :
      (stripUnderscores (collapseRuns false (slugFilter nm.data))).isEmpty = true
  · rw [if_pos he] at hc
    revert hc
    revert c
    decide
  · rw [if_neg he] at hc
    have hc' : c ∈ stripUnderscores (collapseRuns false (slugFilter nm.data)) := hc
    have h1 := stripUnderscores_mem _ c hc'
    rcases collapseRuns_chars _ false c h1 with h | ⟨hm, hs⟩
    · subst h; decide
    · obtain ⟨hw, hu⟩ := slugFilter_chars nm.data c hm
      rw [hs] at hw
      simp at hw
      simp [hw, hu]

theorem assocLookup_dictInsert_ne {α : Type} (k' k : String) (v : α)
    (l : List (String × α)) (h : k' ≠ k) :
    assocLookup k' (dictInsert k v l) = assocLookup k' l := by
  induction l with
  | nil =>
    show assocLookup k' [(k, v)] = assocLookup k' []
    unfold assocLookup
    rw [if_neg (fun hh : k = k' => h hh.symm)]
    rfl
  | cons a rest ih =>
    obtain ⟨ka, va⟩ := a
    unfold dictInsert
    by_cases hk : ka = k
    · rw [if_pos hk]
      subst hk
      unfold assocLookup
      rw [if_neg (fun hh : ka = k' => h hh.symm),
        if_neg (fun hh : ka = k' => h hh.symm)]
    · rw [if_neg hk]
      unfold assocLookup
      by_cases hk' : ka = k'
      · rw [if_pos hk', if_pos hk']
      · rw [if_neg hk', if_neg hk']
        exact ih

theorem findCounterAux_ge (fs : TemplateFS) (slug : String) :
    ∀ (fuel c : Nat), c ≤ findCounterAux fs slug fuel c := by
  intro fuel
  induction fuel with
  | zero => intro c; simp [findCounterAux]
  | succ f ih =>
    intro c
    unfold findCounterAux
    by_cases h : (assocLookup (slug ++ "_" ++ toString c ++ ".json") fs).isSome
    · rw [if_pos h]
      have := ih (c + 1)
      omega
    · rw [if_neg h]

theorem counterKey_ne (slug : String) (c : Nat) :
    slug ++ "_" ++ toString c ++ ".json" ≠ slug ++ ".json" := by
  intro h
  have hd := congrArg String.data h
  simp only [String.data_append] at hd
  have hlen := congrArg List.length hd
  simp at hlen

/-- C4: `_on_save_template` with a non-empty (stripped) name writes exactly
one file holding the five-field template record `savedTemplate`; the
filename is `slugify(name) + ".json"` — the slug consisting only of
non-uppercase word characters — unless a file with that name already exists
and stores a different template name, in which case a counter-suffixed
filename `slug_c.json` (`c ≥ 2`) is used and the existing file's content is
left intact; an unreadable message or an empty stripped name writes
nothing. -/
theorem save_template_spec (fs : TemplateFS) (today : String)
    (m : SaveMsg) :
    _on_save_template fs today none = fs ∧
    (pyStrip (m.name?.getD "") = "" →
      _on_save_template fs today (some m) = fs) ∧
    (pyStrip (m.name?.getD "") ≠ "" →
      (∀ c ∈ (slugify (pyStrip (m.name?.getD ""))).data,
          (isWordChar c && !c.isUpper) = true) ∧
      (assocLookup (slugify (pyStrip (m.name?.getD "")) ++ ".json") fs = none →
        _on_save_template fs today (some m)
          = dictInsert (slugify (pyStrip (m.name?.getD "")) ++ ".json")
              (some (savedTemplate today m)) fs) ∧
      (assocLookup (slugify (pyStrip (m.name?.getD "")) ++ ".json") fs
          = some none →
        _on_save_template fs today (some m)
          = dictInsert (slugify (pyStrip (m.name?.getD "")) ++ ".json")
              (some (savedTemplate today m)) fs) ∧
      (∀ ex, assocLookup (slugify (pyStrip (m.name?.getD "")) ++ ".json") fs
          = some (some ex) →
        ex.name = pyStrip (m.name?.getD "") →
        _on_save_template fs today (some m)
          = dictInsert (slugify (pyStrip (m.name?.getD "")) ++ ".json")
              (some (savedTemplate today m)) fs) ∧
      (∀ ex, assocLookup (slugify (pyStrip (m.name?.getD "")) ++ ".json") fs
          = some (some ex) →
        ex.name ≠ pyStrip (m.name?.getD "") →
        ∃ c, 2 ≤ c ∧
          _on_save_template fs today (some m)
            = dictInsert
                (slugify (pyStrip (m.name?.getD "")) ++ "_" ++ toString c
                  ++ ".json")
                (some (savedTemplate today m)) fs ∧
          assocLookup (slugify (pyStrip (m.name?.getD "")) ++ ".json")
              (_on_save_template fs today (some m))
            = some (some ex))) := by
  refine ⟨rfl, ?_, ?_⟩
  · intro hempty
    unfold _on_save_template
    simp [hempty]
  · intro hne
    refine ⟨slugify_chars _, ?_, ?_, ?_, ?_⟩
    · intro hlook
      unfold _on_save_template
      simp only [if_neg hne]
      rw [hlook]
      rfl
    · intro hlook
      unfold _on_save_template
      simp only [if_neg hne]
      rw [hlook]
      rfl
    · intro ex hlook hsame
      unfold _on_save_template
      simp only [if_neg hne]
      rw [hlook]
      simp only [if_neg (not_ne_iff.mpr hsame)]
      rfl
    · intro ex hlook hdiff
      refine ⟨findCounterAux fs (slugify (pyStrip (m.name?.getD "")))
        (fs.length + 1) 2, findCounterAux_ge _ _ _ 2, ?_, ?_⟩
      · unfold _on_save_template
        simp only [if_neg hne]
        rw [hlook]
        simp only [if_pos hdiff]
        rfl
      · have hres : _on_save_template fs today (some m)
            = dictInsert
                (slugify (pyStrip (m.name?.getD "")) ++ "_"
                  ++ toString (findCounterAux fs
                      (slugify (pyStrip (m.name?.getD ""))) (fs.length + 1) 2)
                  ++ ".json")
                (some (savedTemplate today m)) fs := by
          unfold _on_save_template
          simp only [if_neg hne]
          rw [hlook]
          simp only [if_pos hdiff]
          rfl
        rw [hres,
          assocLookup_dictInsert_ne _ _ _ _
            (fun hh => counterKey_ne _ _ hh.symm)]
        exact hlook

/-- Witness for C4 at a concrete message (fresh-slug branch), plus the
empty-name branch. -/
theorem save_template_spec_witness :
    _on_save_template [] "2026-10-12"
        (some { name? := some "  My Template!  ", description? := none,
                schemaVersion? := none, parameters? := none })
      = dictInsert
          (slugify (pyStrip ((some "  My Template!  " : Option String).getD ""))
            ++ ".json")
          (some (savedTemplate "2026-10-12"
            { name? := some "  My Template!  ", description? := none,
              schemaVersion? := none, parameters? := none })) [] ∧
    _on_save_template [] "2026-10-12"
        (some { name? := some "   ", description? := none,
                schemaVersion? := none, parameters? := none })
      = [] := by
  constructor
  · exact ((save_template_spec [] "2026-10-12"
      { name? := some "  My Template!  ", description? := none,
        schemaVersion? := none, parameters? := none }).2.2
      (by decide)).2.1 (by decide)
  · exact (save_template_spec [] "2026-10-12"
      { name? := some "   ", description? := none,
        schemaVersion? := none, parameters? := none }).2.1 (by decide)

end entry

-- ═════════════════════════════════════════════════════════════════
-- C9 — _on_delete_template path safety
-- ═════════════════════════════════════════════════════════════════

namespace entry

theorem basenameChars_no_sep (s : List Char) :
    ∀ c ∈ basenameChars s, isSep c = false := by
  intro c hc
  unfold basenameChars at hc
  rw [List.mem_reverse] at hc
  have := List.mem_takeWhile_imp hc
  simpa using this

theorem append_singleton_inj {α : Type} {a b : List α} {x y : α}
    (h : a ++ [x] = b ++ [y]) : a = b ∧ x = y := by
  have h' := congrArg List.reverse h
  simp only [List.reverse_append, List.reverse_cons, List.reverse_nil,
    List.nil_append, List.singleton_append] at h'
  have hx : x = y := (List.cons.injEq _ _ _ _).mp h' |>.1
  have ha : a.reverse = b.reverse := (List.cons.injEq _ _ _ _).mp h' |>.2
  exact ⟨List.reverse_injective ha, hx⟩

/-- C9: any file removed by `_on_delete_template` is a direct child of the
user templates directory whose filename is a separator-free string ending in
`.json`; consequently — the presets directory being a different directory —
no file of the bundled presets directory is ever deleted, whatever the
incoming template id (path separators and traversal segments included). -/
theorem delete_template_safety (fs : List (List String))
    (userDir presetsDir : List String) (templateId : String)
    (hdirs : userDir ≠ presetsDir) :
    ∀ p ∈ fs, p ∉ _on_delete_template fs userDir templateId →
      (∃ s, p = userDir ++ [s ++ ".json"] ∧
        ∀ c ∈ s.data, isSep c = false) ∧
      ∀ q, p ≠ presetsDir ++ [q] := by
  intro p hp hnp
  unfold _on_delete_template at hnp
  by_cases hid : templateId = ""
  · rw [if_pos hid] at hnp
    exact absurd hp hnp
  · rw [if_neg hid] at hnp
    by_cases hpre : (userDir.isPrefixOf
        (userDir ++ [String.mk (basenameChars templateId.data) ++ ".json"])) = true
    · rw [if_pos hpre] at hnp
      by_cases hmem :
          (userDir ++ [String.mk (basenameChars templateId.data) ++ ".json"])
            ∈ fs
      · rw [if_pos hmem] at hnp
        have hpeq : p = userDir
            ++ [String.mk (basenameChars templateId.data) ++ ".json"] := by
          by_contra hne
          exact hnp ((List.mem_erase_of_ne hne).mpr hp)
        constructor
        · refine ⟨String.mk (basenameChars templateId.data), hpeq, ?_⟩
          intro c hc
          exact basenameChars_no_sep templateId.data c hc
        · intro q hq
          rw [hpeq] at hq
          exact hdirs (append_singleton_inj hq).1
      · rw [if_neg hmem] at hnp
        exact absurd hp hnp
    · rw [if_neg hpre] at hnp
      exact absurd hp hnp

/-- Witness for C9: a traversal-style id deletes only the sanitised
`.json` child of the user directory, which is distinct from any preset
path. -/
theorem delete_template_safety_witness :
    (["home", "templates", "a.json"] : List String)
      ≠ ["addin", "presets"] ++ ["a.json"] :=
  (delete_template_safety [["home", "templates", "a.json"]]
    ["home", "templates"] ["addin", "presets"] "a" (by decide)
    ["home", "templates", "a.json"] (by decide) (by decide)).2 "a.json"

end entry

-- ═════════════════════════════════════════════════════════════════
-- applyLoop lemmas (for C2 and C8)
-- ═════════════════════════════════════════════════════════════════

/-- Per-entry classification of `apply_parameters` failures, relative to the
parameter list at hand: the error message the loop records for this entry,
if any. -/
def applyEntryError (allowed : List String) (fail : String → String → Bool)
    (ups : List UserParam) (pair : String × String) : Option String :=
  if pyStrip pair.2 = "" then none
  else if pair.1 ∉ allowed then none
  else
    match itemByNameUP ups pair.1 with
    | none => some (notFoundError pair.1)
    | some p =>
      if pyStrip pair.2 = p.expression then none
      else if fail pair.1 (pyStrip pair.2) then
        some (setFailedError pair.1 (pyStrip pair.2))
      else none

/-- Per-entry classification of `apply_parameters` successes: whether the
loop counts this entry as updated. -/
def applyEntryOk (allowed : List String) (fail : String → String → Bool)
    (ups : List UserParam) (pair : String × String) : Bool :=
  if pyStrip pair.2 = "" then false
  else if pair.1 ∉ allowed then false
  else
    match itemByNameUP ups pair.1 with
    | none => false
    | some p =>
      if pyStrip pair.2 = p.expression then false
      else if fail pair.1 (pyStrip pair.2) then false
      else true

theorem applyEntryError_congr {allowed : List String}
    {fail : String → String → Bool} {ups1 ups2 : List UserParam}
    {m e : String} (h : itemByNameUP ups1 m = itemByNameUP ups2 m) :
    applyEntryError allowed fail ups1 (m, e)
      = applyEntryError allowed fail ups2 (m, e) := by
  unfold applyEntryError
  simp only [h]

theorem applyEntryOk_congr {allowed : List String}
    {fail : String → String → Bool} {ups1 ups2 : List UserParam}
    {m e : String} (h : itemByNameUP ups1 m = itemByNameUP ups2 m) :
    applyEntryOk allowed fail ups1 (m, e)
      = applyEntryOk allowed fail ups2 (m, e) := by
  unfold applyEntryOk
  simp only [h]

theorem applyEntryOk_eq_true {allowed : List String}
    {fail : String → String → Bool} {ups : List UserParam}
    {name expr0 : String} :
    applyEntryOk allowed fail ups (name, expr0) = true ↔
      pyStrip expr0 ≠ "" ∧ name ∈ allowed ∧
      ∃ p, itemByNameUP ups name = some p ∧
        pyStrip expr0 ≠ p.expression ∧
        fail name (pyStrip expr0) = false := by
  unfold applyEntryOk
  by_cases he : pyStrip expr0 = ""
  · simp [he]
  · rw [if_neg (by simpa using he)]
    by_cases ha : name ∈ allowed
    · rw [if_neg (by simpa using ha)]
      cases hf : itemByNameUP ups name with
      | none => simp [he, ha, hf]
      | some p =>
        by_cases hsame : pyStrip expr0 = p.expression
        · simp [he, ha, hf, hsame]
        · by_cases hfl : fail name (pyStrip expr0) = true
          · simp [he, ha, hf, hsame, hfl]
          · simp [he, ha, hf, hsame, hfl]
    · rw [if_pos (by simpa using ha)]
      simp [ha]

theorem setParamExpr_names (n e : String) :
    ∀ ups : List UserParam,
      (setParamExpr n e ups).map (fun p => p.name)
        = ups.map (fun p => p.name) := by
  intro ups
  induction ups with
  | nil => rfl
  | cons p rest ih =>
    unfold setParamExpr
    by_cases hp : p.name = n
    · rw [if_pos hp]
      simp
    · rw [if_neg hp]
      simpa using ih

theorem itemByNameUP_setParamExpr_ne {n e m : String} (hmn : m ≠ n) :
    ∀ ups : List UserParam,
      itemByNameUP (setParamExpr n e ups) m = itemByNameUP ups m := by
  intro ups
  induction ups with
  | nil => rfl
  | cons p rest ih =>
    unfold setParamExpr
    by_cases hp : p.name = n
    · rw [if_pos hp]
      unfold itemByNameUP
      have hpred : (p.name == m) = false := by
        rw [beq_eq_false_iff_ne, hp]
        exact fun hh => hmn hh.symm
      rw [List.find?_cons_of_neg (p := fun q : UserParam => q.name == m) _
            (by simpa using hpred),
        List.find?_cons_of_neg (p := fun q : UserParam => q.name == m) _
            (by simpa using hpred)]
    · rw [if_neg hp]
      unfold itemByNameUP
      by_cases hm : (p.name == m) = true
      · rw [List.find?_cons_of_pos (p := fun q : UserParam => q.name == m) _ hm,
          List.find?_cons_of_pos (p := fun q : UserParam => q.name == m) _ hm]
      · rw [List.find?_cons_of_neg (p := fun q : UserParam => q.name == m) _ hm,
          List.find?_cons_of_neg (p := fun q : UserParam => q.name == m) _ hm]
        exact ih

theorem applyLoop_cons_empty {allowed : List String}
    {fail : String → String → Bool} {ups : List UserParam}
    {name expr0 : String} {rest : List (String × String)}
    (he : pyStrip expr0 = "") :
    applyLoop allowed fail ups ((name, expr0) :: rest)
      = applyLoop allowed fail ups rest := by
  show (if pyStrip expr0 = "" then applyLoop allowed fail ups rest
      else if name ∉ allowed then applyLoop allowed fail ups rest
      else
        match itemByNameUP ups name with
        | none =>
          let r := applyLoop allowed fail ups rest
          (r.1, r.2.1, notFoundError name :: r.2.2)
        | some p =>
          if pyStrip expr0 = p.expression then applyLoop allowed fail ups rest
          else if fail name (pyStrip expr0) then
            let r := applyLoop allowed fail ups rest
            (r.1, r.2.1, setFailedError name (pyStrip expr0) :: r.2.2)
          else
            let r := applyLoop allowed fail
              (setParamExpr name (pyStrip expr0) ups) rest
            (r.1, r.2.1 + 1, r.2.2)) = applyLoop allowed fail ups rest
  rw [if_pos he]

theorem applyLoop_cons_protected {allowed : List String}
    {fail : String → String → Bool} {ups : List UserParam}
    {name expr0 : String} {rest : List (String × String)}
    (he : pyStrip expr0 ≠ "") (ha : name ∉ allowed) :
    applyLoop allowed fail ups ((name, expr0) :: rest)
      = applyLoop allowed fail ups rest := by
  show (if pyStrip expr0 = "" then applyLoop allowed fail ups rest
      else if name ∉ allowed then applyLoop allowed fail ups rest
      else
        match itemByNameUP ups name with
        | none =>
          let r := applyLoop allowed fail ups rest
          (r.1, r.2.1, notFoundError name :: r.2.2)
        | some p =>
          if pyStrip expr0 = p.expression then applyLoop allowed fail ups rest
          else if fail name (pyStrip expr0) then
            let r := applyLoop allowed fail ups rest
            (r.1, r.2.1, setFailedError name (pyStrip expr0) :: r.2.2)
          else
            let r := applyLoop allowed fail
              (setParamExpr name (pyStrip expr0) ups) rest
            (r.1, r.2.1 + 1, r.2.2)) = applyLoop allowed fail ups rest
  rw [if_neg he, if_pos (by simpa using ha)]

theorem applyLoop_cons_notfound {allowed : List String}
    {fail : String → String → Bool} {ups : List UserParam}
    {name expr0 : String} {rest : List (String × String)}
    (he : pyStrip expr0 ≠ "") (ha : name ∈ allowed)
    (hf : itemByNameUP ups name = none) :
    applyLoop allowed fail ups ((name, expr0) :: rest)
      = ((applyLoop allowed fail ups rest).1,
         (applyLoop allowed fail ups rest).2.1,
         notFoundError name :: (applyLoop allowed fail ups rest).2.2) := by
  show (if pyStrip expr0 = "" then applyLoop allowed fail ups rest
      else if name ∉ allowed then applyLoop allowed fail ups rest
      else
        match itemByNameUP ups name with
        | none =>
          let r := applyLoop allowed fail ups rest
          (r.1, r.2.1, notFoundError name :: r.2.2)
        | some p =>
          if pyStrip expr0 = p.expression then applyLoop allowed fail ups rest
          else if fail name (pyStrip expr0) then
            let r := applyLoop allowed fail ups rest
            (r.1, r.2.1, setFailedError name (pyStrip expr0) :: r.2.2)
          else
            let r := applyLoop allowed fail
              (setParamExpr name (pyStrip expr0) ups) rest
            (r.1, r.2.1 + 1, r.2.2)) = _
  rw [if_neg he, if_neg (by simpa using ha), hf]

theorem applyLoop_cons_found {allowed : List String}
    {fail : String → String → Bool} {ups : List UserParam}
    {name expr0 : String} {rest : List (String × String)} {p : UserParam}
    (he : pyStrip expr0 ≠ "") (ha : name ∈ allowed)
    (hf : itemByNameUP ups name = some p) :
    applyLoop allowed fail ups ((name, expr0) :: rest)
      = (if pyStrip expr0 = p.expression then applyLoop allowed fail ups rest
         else if fail name (pyStrip expr0) then
           ((applyLoop allowed fail ups rest).1,
            (applyLoop allowed fail ups rest).2.1,
            setFailedError name (pyStrip expr0)
              :: (applyLoop allowed fail ups rest).2.2)
         else
           ((applyLoop allowed fail
               (setParamExpr name (pyStrip expr0) ups) rest).1,
            (applyLoop allowed fail
               (setParamExpr name (pyStrip expr0) ups) rest).2.1 + 1,
            (applyLoop allowed fail
               (setParamExpr name (pyStrip expr0) ups) rest).2.2)) := by
  show (if pyStrip expr0 = "" then applyLoop allowed fail ups rest
      else if name ∉ allowed then applyLoop allowed fail ups rest
      else
        match itemByNameUP ups name with
        | none =>
          let r := applyLoop allowed fail ups rest
          (r.1, r.2.1, notFoundError name :: r.2.2)
        | some p =>
          if pyStrip expr0 = p.expression then applyLoop allowed fail ups rest
          else if fail name (pyStrip expr0) then
            let r := applyLoop allowed fail ups rest
            (r.1, r.2.1, setFailedError name (pyStrip expr0) :: r.2.2)
          else
            let r := applyLoop allowed fail
              (setParamExpr name (pyStrip expr0) ups) rest
            (r.1, r.2.1 + 1, r.2.2)) = _
  rw [if_neg he, if_neg (by simpa using ha), hf]

theorem applyLoop_fst_names (allowed : List String)
    (fail : String → String → Bool) :
    ∀ (inputs : List (String × String)) (ups : List UserParam),
      ((applyLoop allowed fail ups inputs).1).map (fun p => p.name)
        = ups.map (fun p => p.name) := by
  intro inputs
  induction inputs with
  | nil => intro ups; rfl
  | cons pair rest ih =>
    intro ups
    obtain ⟨name, expr0⟩ := pair
    by_cases he : pyStrip expr0 = ""
    · rw [applyLoop_cons_empty he]
      exact ih ups
    · by_cases ha : name ∈ allowed
      · cases hf : itemByNameUP ups name with
        | none =>
          rw [applyLoop_cons_notfound he ha hf]
          exact ih ups
        | some p =>
          rw [applyLoop_cons_found he ha hf]
          by_cases hsame : pyStrip expr0 = p.expression
          · rw [if_pos hsame]
            exact ih ups
          · rw [if_neg hsame]
            by_cases hfl : fail name (pyStrip expr0) = true
            · rw [if_pos hfl]
              exact ih ups
            · rw [if_neg hfl]
              rw [show ((applyLoop allowed fail
                    (setParamExpr name (pyStrip expr0) ups) rest).1,
                  (applyLoop allowed fail
                    (setParamExpr name (pyStrip expr0) ups) rest).2.1 + 1,
                  (applyLoop allowed fail
                    (setParamExpr name (pyStrip expr0) ups) rest).2.2).1
                  = (applyLoop allowed fail
                      (setParamExpr name (pyStrip expr0) ups) rest).1
                from rfl]
              rw [ih (setParamExpr name (pyStrip expr0) ups)]
              exact setParamExpr_names name (pyStrip expr0) ups
      · rw [applyLoop_cons_protected he ha]
        exact ih ups

theorem applyLoop_spec (allowed : List String)
    (fail : String → String → Bool) :
    ∀ (inputs : List (String × String)) (ups : List UserParam),
      (inputs.map Prod.fst).Nodup →
      (applyLoop allowed fail ups inputs).2.2
          = inputs.filterMap (applyEntryError allowed fail ups) ∧
      (applyLoop allowed fail ups inputs).2.1
          = inputs.countP (applyEntryOk allowed fail ups) := by
  intro inputs
  induction inputs with
  | nil => intro ups _; exact ⟨rfl, rfl⟩
  | cons pair rest ih =>
    intro ups hnd
    obtain ⟨name, expr0⟩ := pair
    have hnd1 : (name :: rest.map Prod.fst).Nodup := hnd
    have hnd0 := List.nodup_cons.mp hnd1
    have hnotin : name ∉ rest.map Prod.fst := hnd0.1
    have hnd' : (rest.map Prod.fst).Nodup := hnd0.2
    have hihr := ih ups hnd'
    rw [List.filterMap_cons, List.countP_cons]
    by_cases he : pyStrip expr0 = ""
    · have hE : applyEntryError allowed fail ups (name, expr0) = none := by
        unfold applyEntryError; simp [he]
      have hO : applyEntryOk allowed fail ups (name, expr0) = false := by
        unfold applyEntryOk; simp [he]
      rw [applyLoop_cons_empty he, hE, hO]
      simpa using hihr
    · by_cases ha : name ∈ allowed
      · cases hf : itemByNameUP ups name with
        | none =>
          have hE : applyEntryError allowed fail ups (name, expr0)
              = some (notFoundError name) := by
            unfold applyEntryError; simp [he, ha, hf]
          have hO : applyEntryOk allowed fail ups (name, expr0) = false := by
            unfold applyEntryOk; simp [he, ha, hf]
          rw [applyLoop_cons_notfound he ha hf, hE, hO]
          exact ⟨by simp [hihr.1], by simp [hihr.2]⟩
        | some p =>
          rw [applyLoop_cons_found he ha hf]
          by_cases hsame : pyStrip expr0 = p.expression
          · have hE : applyEntryError allowed fail ups (name, expr0)
                = none := by
              unfold applyEntryError; simp [he, ha, hf, hsame]
            have hO : applyEntryOk allowed fail ups (name, expr0)
                = false := by
              unfold applyEntryOk; simp [he, ha, hf, hsame]
            rw [if_pos hsame, hE, hO]
            simpa using hihr
          · rw [if_neg hsame]
            by_cases hfl : fail name (pyStrip expr0) = true
            · have hE : applyEntryError allowed fail ups (name, expr0)
                  = some (setFailedError name (pyStrip expr0)) := by
                unfold applyEntryError; simp [he, ha, hf, hsame, hfl]
              have hO : applyEntryOk allowed fail ups (name, expr0)
                  = false := by
                unfold applyEntryOk; simp [he, ha, hf, hsame, hfl]
              rw [if_pos hfl, hE, hO]
              exact ⟨by simp [hihr.1], by simp [hihr.2]⟩
            · have hE : applyEntryError allowed fail ups (name, expr0)
                  = none := by
                unfold applyEntryError; simp [he, ha, hf, hsame, hfl]
              have hO : applyEntryOk allowed fail ups (name, expr0)
                  = true := by
                unfold applyEntryOk; simp [he, ha, hf, hsame, hfl]
              rw [if_neg hfl, hE, hO]
              have hcongrE : ∀ q ∈ rest,
                  applyEntryError allowed fail
                      (setParamExpr name (pyStrip expr0) ups) q
                    = applyEntryError allowed fail ups q := by
                intro q hq
                obtain ⟨mq, eq⟩ := q
                have hmq : mq ≠ name := by
                  intro hh
                  subst hh
                  exact hnotin (by
                    rw [List.mem_map]
                    exact ⟨(mq, eq), hq, rfl⟩)
                exact applyEntryError_congr
                  (itemByNameUP_setParamExpr_ne hmq ups)
              have hcongrO : ∀ q ∈ rest,
                  applyEntryOk allowed fail
                      (setParamExpr name (pyStrip expr0) ups) q
                    = applyEntryOk allowed fail ups q := by
                intro q hq
                obtain ⟨mq, eq⟩ := q
                have hmq : mq ≠ name := by
                  intro hh
                  subst hh
                  exact hnotin (by
                    rw [List.mem_map]
                    exact ⟨(mq, eq), hq, rfl⟩)
                exact applyEntryOk_congr
                  (itemByNameUP_setParamExpr_ne hmq ups)
              have hihr' := ih (setParamExpr name (pyStrip expr0) ups) hnd'
              constructor
              · show (applyLoop allowed fail
                    (setParamExpr name (pyStrip expr0) ups) rest).2.2 = _
                rw [hihr'.1, List.filterMap_congr hcongrE]
              · show (applyLoop allowed fail
                    (setParamExpr name (pyStrip expr0) ups) rest).2.1 + 1 = _
                rw [hihr'.2,
                  List.countP_congr (fun q hq => by rw [hcongrO q hq])]
                simp
      · have hE : applyEntryError allowed fail ups (name, expr0) = none := by
          unfold applyEntryError; simp [he, ha]
        have hO : applyEntryOk allowed fail ups (name, expr0) = false := by
          unfold applyEntryOk; simp [he, ha]
        rw [applyLoop_cons_protected he ha, hE, hO]
        simpa using hihr

theorem applyLoop_frame (allowed : List String)
    (fail : String → String → Bool) :
    ∀ (inputs : List (String × String)) (ups : List UserParam) (m : String),
      (∀ e, (m, e) ∈ inputs →
        applyEntryOk allowed fail ups (m, e) = false) →
      itemByNameUP (applyLoop allowed fail ups inputs).1 m
        = itemByNameUP ups m := by
  intro inputs
  induction inputs with
  | nil => intro ups m _; rfl
  | cons pair rest ih =>
    intro ups m hcond
    obtain ⟨name, expr0⟩ := pair
    have hcond' : ∀ e, (m, e) ∈ rest →
        applyEntryOk allowed fail ups (m, e) = false :=
      fun e hme => hcond e (by simp [hme])
    by_cases he : pyStrip expr0 = ""
    · rw [applyLoop_cons_empty he]
      exact ih ups m hcond'
    · by_cases ha : name ∈ allowed
      · cases hf : itemByNameUP ups name with
        | none =>
          rw [applyLoop_cons_notfound he ha hf]
          exact ih ups m hcond'
        | some p =>
          rw [applyLoop_cons_found he ha hf]
          by_cases hsame : pyStrip expr0 = p.expression
          · rw [if_pos hsame]
            exact ih ups m hcond'
          · rw [if_neg hsame]
            by_cases hfl : fail name (pyStrip expr0) = true
            · rw [if_pos hfl]
              exact ih ups m hcond'
            · rw [if_neg hfl]
              have hmn : m ≠ name := by
                intro hh
                subst hh
                have hok : applyEntryOk allowed fail ups (m, expr0)
                    = true := by
                  unfold applyEntryOk
                  simp [he, ha, hf, hsame, hfl]
                have hfalse := hcond expr0 (by simp)
                rw [hok] at hfalse
                exact Bool.noConfusion hfalse
              have hset := itemByNameUP_setParamExpr_ne
                (e := pyStrip expr0) hmn ups
              have hcond'' : ∀ e, (m, e) ∈ rest →
                  applyEntryOk allowed fail
                    (setParamExpr name (pyStrip expr0) ups) (m, e)
                    = false := by
                intro e hme
                rw [applyEntryOk_congr hset]
                exact hcond' e hme
              show itemByNameUP (applyLoop allowed fail
                  (setParamExpr name (pyStrip expr0) ups) rest).1 m = _
              rw [ih (setParamExpr name (pyStrip expr0) ups) m hcond'',
                hset]
      · rw [applyLoop_cons_protected he ha]
        exact ih ups m hcond'

theorem apply_parameters_eq (schema? : Option Schema)
    (fail : String → String → Bool) (d : Design)
    (inputs : List (String × String))
    (h1 : _get_editable_names schema? ≠ []) (h2 : inputs ≠ []) :
    apply_parameters schema? fail d inputs
      = ({ d with userParams :=
            (applyLoop (_get_editable_names schema?) fail
              d.userParams inputs).1 },
         (applyLoop (_get_editable_names schema?) fail
           d.userParams inputs).2.1,
         (applyLoop (_get_editable_names schema?) fail
           d.userParams inputs).2.2) := by
  unfold apply_parameters
  rw [if_neg h1, if_neg h2]

-- ═════════════════════════════════════════════════════════════════
-- C8 — apply_parameters frame property
-- ═════════════════════════════════════════════════════════════════

/-- C8: `apply_parameters` never adds or removes parameters, never touches
the timeline, and modifies only parameters that are named in the input,
belong to the schema's editable-name set, carry a non-empty stripped
expression, and differ from the parameter's current expression — every
other lookup is unchanged; with an unloadable schema it returns
`{'updated': 0, 'errors': ['Schema could not be loaded.']}` and the design
untouched. -/
theorem apply_parameters_frame (schema? : Option Schema)
    (fail : String → String → Bool) (d : Design)
    (inputs : List (String × String)) :
    apply_parameters none fail d inputs
        = (d, 0, ["Schema could not be loaded."]) ∧
    ((apply_parameters schema? fail d inputs).1.userParams.map
        (fun p => p.name) = d.userParams.map (fun p => p.name)) ∧
    (apply_parameters schema? fail d inputs).1.timeline = d.timeline ∧
    (∀ m, itemByNameUP (apply_parameters schema? fail d inputs).1.userParams m
          ≠ itemByNameUP d.userParams m →
      ∃ e, (m, e) ∈ inputs ∧ pyStrip e ≠ "" ∧
        m ∈ _get_editable_names schema? ∧
        ∃ p, itemByNameUP d.userParams m = some p ∧
          pyStrip e ≠ p.expression) := by
  have hnone : apply_parameters none fail d inputs
      = (d, 0, ["Schema could not be loaded."]) := by
    unfold apply_parameters
    rw [if_pos (show _get_editable_names none = [] from rfl)]
  refine ⟨hnone, ?_, ?_, ?_⟩
  · by_cases h1 : _get_editable_names schema? = []
    · unfold apply_parameters
      rw [if_pos h1]
    · by_cases h2 : inputs = []
      · unfold apply_parameters
        rw [if_neg h1, if_pos h2]
      · rw [apply_parameters_eq schema? fail d inputs h1 h2]
        exact applyLoop_fst_names _ fail inputs d.userParams
  · by_cases h1 : _get_editable_names schema? = []
    · unfold apply_parameters
      rw [if_pos h1]
    · by_cases h2 : inputs = []
      · unfold apply_parameters
        rw [if_neg h1, if_pos h2]
      · rw [apply_parameters_eq schema? fail d inputs h1 h2]
  · intro m hne
    by_cases h1 : _get_editable_names schema? = []
    · exfalso
      apply hne
      unfold apply_parameters
      rw [if_pos h1]
    · by_cases h2 : inputs = []
      · exfalso
        apply hne
        unfold apply_parameters
        rw [if_neg h1, if_pos h2]
      · rw [apply_parameters_eq schema? fail d inputs h1 h2] at hne
        by_contra hnex
        push_neg at hnex
        apply hne
        show itemByNameUP (applyLoop (_get_editable_names schema?) fail
            d.userParams inputs).1 m = itemByNameUP d.userParams m
        apply applyLoop_frame
        intro e hme
        by_contra hok
        have hok' : applyEntryOk (_get_editable_names schema?) fail
            d.userParams (m, e) = true := by
          cases hb : applyEntryOk (_get_editable_names schema?) fail
              d.userParams (m, e)
          · exact absurd hb hok
          · rfl
        obtain ⟨hse, hal, p, hp, hdiff, _⟩ :=
          applyEntryOk_eq_true.mp hok'
        exact hdiff (hnex e hme hse hal p hp)

/-- A one-parameter schema used by concrete witnesses. -/
def sampleParamDef : ParamDef :=
  { name := "ScaleLength"
    editable? := some true
    label? := none
    unitKind? := none
    controlType? := none
    default? := none
    min? := none
    max? := none
    step? := none
    description? := none }

/-- A one-group schema used by concrete witnesses. -/
def sampleSchema : Schema :=
  { schemaVersion? := some "0.3.0"
    templateVersion? := none
    groups := [{ id := "g"
                 label := "G"
                 order? := none
                 parameters := [sampleParamDef] }] }

/-- A one-parameter design used by concrete witnesses. -/
def sampleDesign : Design :=
  { userParams := [{ name := "ScaleLength"
                     expression := "24.75"
                     value := 0
                     unit := "in"
                     comment := "" }]
    timeline := [] }

/-- Witness for C8: the modified parameter satisfies all four conditions at
a concrete schema, design and input. -/
theorem apply_parameters_frame_witness :
    ∃ e, ("ScaleLength", e)
        ∈ ([("ScaleLength", "25.5")] : List (String × String)) ∧
      pyStrip e ≠ "" ∧
      "ScaleLength" ∈ _get_editable_names (some sampleSchema) ∧
      ∃ p, itemByNameUP sampleDesign.userParams "ScaleLength" = some p ∧
        pyStrip e ≠ p.expression :=
  (apply_parameters_frame (some sampleSchema) (fun _ _ => false)
    sampleDesign [("ScaleLength", "25.5")]).2.2.2 "ScaleLength" (by decide)

-- ═════════════════════════════════════════════════════════════════
-- C2 — batch processing continues past failures and reports them by name
-- ═════════════════════════════════════════════════════════════════

theorem applyChanges_cons (env : entry.HostEnv) (d : Design)
    (c : entry.TChange) (rest : List entry.TChange) :
    entry.applyChanges env d (c :: rest)
      = if env.changeRaises c then
          ((entry.applyChanges env d rest).1,
           (entry.applyChanges env d rest).2.1,
           c.name :: (entry.applyChanges env d rest).2.2)
        else
          ((entry.applyChanges env (entry.applyOneChange env d c) rest).1,
           (entry.applyChanges env (entry.applyOneChange env d c) rest).2.1
             + 1,
           (entry.applyChanges env
             (entry.applyOneChange env d c) rest).2.2) := rfl

theorem applyChanges_spec (env : entry.HostEnv) :
    ∀ (changes : List entry.TChange) (d : Design),
      (entry.applyChanges env d changes).2.2
          = (changes.filter env.changeRaises).map (fun c => c.name) ∧
      (entry.applyChanges env d changes).2.1
          = (changes.filter (fun c => !env.changeRaises c)).length := by
  intro changes
  induction changes with
  | nil => intro d; exact ⟨rfl, rfl⟩
  | cons c rest ih =>
    intro d
    rw [applyChanges_cons]
    by_cases hr : env.changeRaises c = true
    · rw [if_pos hr]
      refine ⟨?_, ?_⟩
      · show c.name :: (entry.applyChanges env d rest).2.2 = _
        rw [(ih d).1, List.filter_cons, if_pos hr]
        rfl
      · show (entry.applyChanges env d rest).2.1 = _
        rw [(ih d).2, List.filter_cons]
        simp [hr]
    · rw [if_neg hr]
      refine ⟨?_, ?_⟩
      · show (entry.applyChanges env
            (entry.applyOneChange env d c) rest).2.2 = _
        rw [(ih (entry.applyOneChange env d c)).1, List.filter_cons]
        simp [hr]
      · show (entry.applyChanges env
            (entry.applyOneChange env d c) rest).2.1 + 1 = _
        rw [(ih (entry.applyOneChange env d c)).2, List.filter_cons]
        simp [hr]

/-- C2: a failure on one item of a batch stops neither `apply_parameters`
nor `_deferred_timeline_handler`, and both report every failure by name:
the `errors` list of `apply_parameters` is exactly the per-entry
classification over the whole input (not-found and raising assignments each
contribute their message) with `updated` counting the successes; the
timeline batch handler counts successful changes and sends a result whose
`failed` list holds the name of every change that raised. -/
theorem batch_partial_failure (schema? : Option Schema)
    (fail : String → String → Bool) (d : Design)
    (inputs : List (String × String)) (env : entry.HostEnv)
    (s : entry.PluginState) (op : entry.TimelineOp) (d2 : Design) :
    ((inputs.map Prod.fst).Nodup → _get_editable_names schema? ≠ [] →
      (apply_parameters schema? fail d inputs).2.2
          = inputs.filterMap
              (applyEntryError (_get_editable_names schema?) fail
                d.userParams) ∧
      (apply_parameters schema? fail d inputs).2.1
          = inputs.countP
              (applyEntryOk (_get_editable_names schema?) fail
                d.userParams)) ∧
    ((entry.applyChanges env d2 op.changes).2.2
        = (op.changes.filter env.changeRaises).map (fun c => c.name) ∧
      (entry.applyChanges env d2 op.changes).2.1
        = (op.changes.filter (fun c => !env.changeRaises c)).length) ∧
    (s.pendingTimelineOp = some op →
      op.action = "APPLY_TIMELINE_CHANGES" →
      s.design? = some d2 → env.paletteExists = true →
      ∃ msg, (entry._deferred_timeline_handler env s).sent
          = s.sent ++ [entry.SentMsg.timelineResult
              ((op.changes.filter env.changeRaises).map
                (fun c => c.name)).isEmpty
              msg
              ((op.changes.filter (fun c => !env.changeRaises c)).length)
              ((op.changes.filter env.changeRaises).map
                (fun c => c.name))]) := by
  refine ⟨?_, applyChanges_spec env op.changes d2, ?_⟩
  · intro hnd h1
    by_cases h2 : inputs = []
    · subst h2
      unfold apply_parameters
      rw [if_neg h1, if_pos rfl]
      exact ⟨rfl, rfl⟩
    · rw [apply_parameters_eq schema? fail d inputs h1 h2]
      exact applyLoop_spec _ fail inputs d.userParams hnd
  · intro hop hact hdes hpal
    obtain ⟨ds, pa, pt, st, fi⟩ := s
    obtain ⟨act, chs⟩ := op
    simp only at hop hdes hact ⊢
    subst hop
    subst hdes
    subst hact
    have hspec := applyChanges_spec env chs d2
    have hfinal : ∃ msg,
        (entry._deferred_timeline_handler env
            ⟨some d2, pa, some ⟨"APPLY_TIMELINE_CHANGES", chs⟩, st, fi⟩).sent
          = st ++ [entry.SentMsg.timelineResult
              (entry.applyChanges env d2 chs).2.2.isEmpty msg
              (entry.applyChanges env d2 chs).2.1
              (entry.applyChanges env d2 chs).2.2] := by
      refine ⟨toString "Applied "
          ++ toString (entry.applyChanges env d2 chs).2.1
          ++ toString " change(s)"
          ++ (if (entry.applyChanges env d2 chs).2.2.isEmpty then ""
              else toString " ("
                ++ toString (entry.applyChanges env d2 chs).2.2.length
                ++ toString " failed)"), ?_⟩
      unfold entry._deferred_timeline_handler
      dsimp only
      simp only [bne_self_eq_false, Bool.false_eq_true, if_false]
      unfold entry.sendInfoToHTML
      rw [if_pos hpal]
    obtain ⟨msg, hmsg⟩ := hfinal
    exact ⟨msg, by rw [hmsg, hspec.1, hspec.2]⟩

/-- Witness for C2: a two-change batch where the second change raises — the
result reports one success and names the failed change. -/
theorem batch_partial_failure_witness :
    (entry.applyChanges
        { paletteExists := true
          schema? := none
          docUnit := "in"
          templateDesign? := none
          applyFail := fun _ _ => false
          addFpFails := fun _ => false
          tl := tlOk
          changeRaises := fun c => c.name == "Bad" }
        sampleDesign
        [{ name := "Cut", type := "Feature", suppressed := true },
         { name := "Bad", type := "Feature", suppressed := false }]).2.2
      = ["Bad"] ∧
    (entry.applyChanges
        { paletteExists := true
          schema? := none
          docUnit := "in"
          templateDesign? := none
          applyFail := fun _ _ => false
          addFpFails := fun _ => false
          tl := tlOk
          changeRaises := fun c => c.name == "Bad" }
        sampleDesign
        [{ name := "Cut", type := "Feature", suppressed := true },
         { name := "Bad", type := "Feature", suppressed := false }]).2.1
      = 1 := by
  have h := (batch_partial_failure none (fun _ _ => false) sampleDesign []
    { paletteExists := true
      schema? := none
      docUnit := "in"
      templateDesign? := none
      applyFail := fun _ _ => false
      addFpFails := fun _ => false
      tl := tlOk
      changeRaises := fun c => c.name == "Bad" }
    { design? := none
      pendingApply := none
      pendingTimelineOp := none
      sent := []
      fired := [] }
    { action := "APPLY_TIMELINE_CHANGES"
      changes :=
        [{ name := "Cut", type := "Feature", suppressed := true },
         { name := "Bad", type := "Feature", suppressed := false }] }
    sampleDesign).2.1
  exact ⟨by rw [h.1]; decide, by rw [h.2]; decide⟩

-- ═════════════════════════════════════════════════════════════════
-- C3 — build_ui_payload partitions parameter names correctly
-- ═════════════════════════════════════════════════════════════════

theorem assocLookup_dictInsert {α : Type} (k : String) (v : α)
    (l : List (String × α)) (x : String) :
    assocLookup x (dictInsert k v l)
      = if k = x then some v else assocLookup x l := by
  induction l with
  | nil =>
    unfold dictInsert assocLookup
    by_cases h : k = x
    · rw [if_pos h, if_pos h]
    · rw [if_neg h, if_neg h]
      rfl
  | cons a rest ih =>
    obtain ⟨ka, va⟩ := a
    unfold dictInsert
    by_cases hk : ka = k
    · rw [if_pos hk]
      subst hk
      unfold assocLookup
      by_cases h : ka = x
      · rw [if_pos h, if_pos h]
      · rw [if_neg h, if_neg h, if_neg h]
    · rw [if_neg hk]
      unfold assocLookup
      by_cases h : ka = x
      · rw [if_pos h, if_pos h]
        have : ¬ k = x := fun hh => hk (hh.symm ▸ h.symm ▸ rfl)
        rw [if_neg this]
      · rw [if_neg h, if_neg h]
        exact ih

theorem get_user_parameters_lookup (d : Design) (x : String) :
    (assocLookup x (get_user_parameters d) = none ↔
      ¬ ∃ q ∈ d.userParams, q.name = x) ∧
    (∀ info, assocLookup x (get_user_parameters d) = some info →
      ∃ q ∈ d.userParams, q.name = x ∧ info = q) := by
  have key : ∀ (ups : List UserParam) (acc : List (String × UserParam)),
      (assocLookup x (ups.foldl (fun a p => dictInsert p.name p a) acc)
          = none ↔
        ¬ ((∃ q ∈ ups, q.name = x) ∨ (assocLookup x acc).isSome)) ∧
      (∀ info, assocLookup x
          (ups.foldl (fun a p => dictInsert p.name p a) acc) = some info →
        (∃ q ∈ ups, q.name = x ∧ info = q) ∨
          assocLookup x acc = some info) := by
    intro ups
    induction ups with
    | nil =>
      intro acc
      constructor
      · cases h : assocLookup x acc with
        | none => simp [h]
        | some v => simp [h]
      · intro info h
        exact Or.inr h
    | cons p rest ih =>
      intro acc
      have hfold : (p :: rest).foldl (fun a q => dictInsert q.name q a) acc
          = rest.foldl (fun a q => dictInsert q.name q a)
              (dictInsert p.name p acc) := rfl
      constructor
      · rw [hfold, (ih (dictInsert p.name p acc)).1,
          assocLookup_dictInsert]
        by_cases hp : p.name = x
        · simp [hp]
        · simp only [if_neg hp]
          constructor
          · intro h hcon
            apply h
            rcases hcon with ⟨q, hq, hqx⟩ | hs
            · rcases List.mem_cons.mp hq with hq1 | hq2
              · exact absurd (hq1 ▸ hqx) hp
              · exact Or.inl ⟨q, hq2, hqx⟩
            · exact Or.inr hs
          · intro h hcon
            apply h
            rcases hcon with ⟨q, hq, hqx⟩ | hs
            · exact Or.inl ⟨q, by simp [hq], hqx⟩
            · exact Or.inr hs
      · intro info h
        rw [hfold] at h
        rcases (ih (dictInsert p.name p acc)).2 info h with
          ⟨q, hq, hqx, hinfo⟩ | hacc
        · exact Or.inl ⟨q, by simp [hq], hqx, hinfo⟩
        · rw [assocLookup_dictInsert] at hacc
          by_cases hp : p.name = x
          · rw [if_pos hp] at hacc
            exact Or.inl ⟨p, by simp, hp,
              ((Option.some.injEq _ _).mp hacc).symm⟩
          · rw [if_neg hp] at hacc
            exact Or.inr hacc
  unfold get_user_parameters
  constructor
  · rw [(key d.userParams []).1]
    constructor
    · intro h hcon
      exact h (Or.inl hcon)
    · intro h hcon
      rcases hcon with hc | hs
      · exact h hc
      · simp [assocLookup] at hs
  · intro info h
    rcases (key d.userParams []).2 info h with ⟨q, hq, hqx, hinfo⟩ | habs
    · exact ⟨q, hq, hqx, hinfo⟩
    · simp [assocLookup] at habs

theorem processParams_mem (live : List (String × UserParam)) :
    ∀ (ps : List ParamDef),
      (∀ x, x ∈ (processParams live ps).2 ↔
        ∃ p ∈ ps, (p.editable?.getD true) = true ∧ p.name = x ∧
          assocLookup p.name live = none) ∧
      (∀ e, e ∈ (processParams live ps).1 ↔
        ∃ p ∈ ps, (p.editable?.getD true) = true ∧
          ∃ info, assocLookup p.name live = some info ∧
            e = mkLiveEntry p info) := by
  intro ps
  induction ps with
  | nil =>
    constructor
    · intro x; simp [processParams]
    · intro e; simp [processParams]
  | cons p rest ih =>
    by_cases hed : (p.editable?.getD true) = true
    · cases hl : assocLookup p.name live with
      | none =>
        have hred : processParams live (p :: rest)
            = ((processParams live rest).1,
               p.name :: (processParams live rest).2) := by
          show (if p.editable?.getD true then
                match assocLookup p.name live with
                | none => ((processParams live rest).1,
                    p.name :: (processParams live rest).2)
                | some info => (mkLiveEntry p info
                    :: (processParams live rest).1,
                    (processParams live rest).2)
              else processParams live rest) = _
          rw [if_pos hed, hl]
        constructor
        · intro x
          rw [hred]
          show x ∈ p.name :: (processParams live rest).2 ↔ _
          rw [List.mem_cons, (ih).1 x]
          constructor
          · rintro (hx | ⟨q, hq, hqe, hqx, hql⟩)
            · exact ⟨p, by simp, hed, hx.symm, hl⟩
            · exact ⟨q, by simp [hq], hqe, hqx, hql⟩
          · rintro ⟨q, hq, hqe, hqx, hql⟩
            rcases List.mem_cons.mp hq with hq1 | hq2
            · subst hq1
              exact Or.inl hqx.symm
            · exact Or.inr ⟨q, hq2, hqe, hqx, hql⟩
        · intro e
          rw [hred]
          show e ∈ (processParams live rest).1 ↔ _
          rw [(ih).2 e]
          constructor
          · rintro ⟨q, hq, hqe, info, hql, hinfo⟩
            exact ⟨q, by simp [hq], hqe, info, hql, hinfo⟩
          · rintro ⟨q, hq, hqe, info, hql, hinfo⟩
            rcases List.mem_cons.mp hq with hq1 | hq2
            · subst hq1
              rw [hql] at hl
              exact Option.noConfusion hl
            · exact ⟨q, hq2, hqe, info, hql, hinfo⟩
      | some info0 =>
        have hred : processParams live (p :: rest)
            = (mkLiveEntry p info0 :: (processParams live rest).1,
               (processParams live rest).2) := by
          show (if p.editable?.getD true then
                match assocLookup p.name live with
                | none => ((processParams live rest).1,
                    p.name :: (processParams live rest).2)
                | some info => (mkLiveEntry p info
                    :: (processParams live rest).1,
                    (processParams live rest).2)
              else processParams live rest) = _
          rw [if_pos hed, hl]
        constructor
        · intro x
          rw [hred]
          show x ∈ (processParams live rest).2 ↔ _
          rw [(ih).1 x]
          constructor
          · rintro ⟨q, hq, hqe, hqx, hql⟩
            exact ⟨q, by simp [hq], hqe, hqx, hql⟩
          · rintro ⟨q, hq, hqe, hqx, hql⟩
            rcases List.mem_cons.mp hq with hq1 | hq2
            · subst hq1
              rw [hql] at hl
              exact Option.noConfusion hl
            · exact ⟨q, hq2, hqe, hqx, hql⟩
        · intro e
          rw [hred]
          show e ∈ mkLiveEntry p info0 :: (processParams live rest).1 ↔ _
          rw [List.mem_cons, (ih).2 e]
          constructor
          · rintro (he | ⟨q, hq, hqe, info, hql, hinfo⟩)
            · exact ⟨p, by simp, hed, info0, hl, he⟩
            · exact ⟨q, by simp [hq], hqe, info, hql, hinfo⟩
          · rintro ⟨q, hq, hqe, info, hql, hinfo⟩
            rcases List.mem_cons.mp hq with hq1 | hq2
            · subst hq1
              rw [hql] at hl
              rw [(Option.some.injEq _ _).mp hl] at hinfo
              exact Or.inl hinfo
            · exact Or.inr ⟨q, hq2, hqe, info, hql, hinfo⟩
    · have hred : processParams live (p :: rest)
          = processParams live rest := by
        show (if p.editable?.getD true then
              match assocLookup p.name live with
              | none => ((processParams live rest).1,
                  p.name :: (processParams live rest).2)
              | some info => (mkLiveEntry p info
                  :: (processParams live rest).1,
                  (processParams live rest).2)
            else processParams live rest) = _
        rw [if_neg hed]
      rw [hred]
      constructor
      · intro x
        rw [(ih).1 x]
        constructor
        · rintro ⟨q, hq, hqe, hqx, hql⟩
          exact ⟨q, by simp [hq], hqe, hqx, hql⟩
        · rintro ⟨q, hq, hqe, hqx, hql⟩
          rcases List.mem_cons.mp hq with hq1 | hq2
          · subst hq1
            exact absurd hqe hed
          · exact ⟨q, hq2, hqe, hqx, hql⟩
      · intro e
        rw [(ih).2 e]
        constructor
        · rintro ⟨q, hq, hqe, info, hql, hinfo⟩
          exact ⟨q, by simp [hq], hqe, info, hql, hinfo⟩
        · rintro ⟨q, hq, hqe, info, hql, hinfo⟩
          rcases List.mem_cons.mp hq with hq1 | hq2
          · subst hq1
            exact absurd hqe hed
          · exact ⟨q, hq2, hqe, info, hql, hinfo⟩

theorem buildGroups_mem (live : List (String × UserParam)) :
    ∀ (gs : List GroupDef),
      (∀ x, x ∈ (buildGroups live gs).2 ↔
        ∃ g ∈ gs, x ∈ (processParams live g.parameters).2) ∧
      (∀ ug, ug ∈ (buildGroups live gs).1 ↔
        ∃ g ∈ gs, ug =
          ({ id := g.id
             label := g.label
             order := g.order?.getD 0
             parameters := (processParams live g.parameters).1 } :
            UIGroup)) := by
  intro gs
  induction gs with
  | nil =>
    constructor
    · intro x; simp [buildGroups]
    · intro ug; simp [buildGroups]
  | cons g rest ih =>
    have hred : buildGroups live (g :: rest)
        = ({ id := g.id
             label := g.label
             order := g.order?.getD 0
             parameters := (processParams live g.parameters).1 }
              :: (buildGroups live rest).1,
           (processParams live g.parameters).2
              ++ (buildGroups live rest).2) := rfl
    rw [hred]
    constructor
    · intro x
      show x ∈ (processParams live g.parameters).2
          ++ (buildGroups live rest).2 ↔ _
      rw [List.mem_append, (ih).1 x]
      constructor
      · rintro (hx | ⟨g', hg', hx'⟩)
        · exact ⟨g, by simp, hx⟩
        · exact ⟨g', by simp [hg'], hx'⟩
      · rintro ⟨g', hg', hx'⟩
        rcases List.mem_cons.mp hg' with h1 | h2
        · subst h1; exact Or.inl hx'
        · exact Or.inr ⟨g', h2, hx'⟩
    · intro ug
      show ug ∈ _ :: (buildGroups live rest).1 ↔ _
      rw [List.mem_cons, (ih).2 ug]
      constructor
      · rintro (hu | ⟨g', hg', hu'⟩)
        · exact ⟨g, by simp, hu⟩
        · exact ⟨g', by simp [hg'], hu'⟩
      · rintro ⟨g', hg', hu'⟩
        rcases List.mem_cons.mp hg' with h1 | h2
        · subst h1; exact Or.inl hu'
        · exact Or.inr ⟨g', h2, hu'⟩

theorem assocLookup_isSome_iff {α : Type} (x : String)
    (l : List (String × α)) :
    (assocLookup x l).isSome ↔ x ∈ dictKeys l := by
  induction l with
  | nil => simp [assocLookup, dictKeys]
  | cons a rest ih =>
    obtain ⟨ka, va⟩ := a
    unfold assocLookup
    by_cases hk : ka = x
    · rw [if_pos hk]
      simp [dictKeys, hk]
    · rw [if_neg hk]
      rw [ih]
      simp only [dictKeys, List.map_cons, List.mem_cons]
      constructor
      · exact Or.inr
      · rintro (h | h)
        · exact absurd h.symm hk
        · exact h

/-- C3: `build_ui_payload` partitions parameter names correctly: `missing`
holds exactly the editable schema parameter names absent from the design's
user parameters; `extra` holds exactly the design user-parameter names that
occur in no schema group and are not the fingerprint parameter; and every
entry of `groups` is an editable schema parameter present in the live
design, carrying that design parameter's live expression, value and unit. -/
theorem build_ui_payload_partition (schema : Schema) (docUnit : String)
    (d : Design) (pl : UIPayload)
    (hbp : build_ui_payload (some schema) docUnit d = some pl) :
    (∀ x, x ∈ pl.missing ↔
      ((∃ g ∈ schema.groups, ∃ p ∈ g.parameters,
          (p.editable?.getD true) = true ∧ p.name = x) ∧
        ¬ ∃ q ∈ d.userParams, q.name = x)) ∧
    (∀ x, x ∈ pl.extra ↔
      ((∃ q ∈ d.userParams, q.name = x) ∧
        (¬ ∃ g ∈ schema.groups, ∃ p ∈ g.parameters, p.name = x) ∧
        x ≠ FINGERPRINT_PARAM)) ∧
    (∀ gr ∈ pl.groups, ∀ e ∈ gr.parameters,
      (∃ g ∈ schema.groups, ∃ p ∈ g.parameters,
        (p.editable?.getD true) = true ∧ p.name = e.name) ∧
      ∃ q ∈ d.userParams, q.name = e.name ∧
        e.expression = q.expression ∧ e.value = some q.value ∧
        e.unit = q.unit) := by
  have hlook := get_user_parameters_lookup d
  have hpm := processParams_mem (get_user_parameters d)
  have hbm := buildGroups_mem (get_user_parameters d) schema.groups
  have hpl : pl.missing = (buildGroups (get_user_parameters d)
        schema.groups).2 ∧
      pl.extra = (dictKeys (get_user_parameters d)).filter
        (fun n => !((allSchemaNames schema).contains n)
          && n != FINGERPRINT_PARAM) ∧
      pl.groups = ((buildGroups (get_user_parameters d)
        schema.groups).1).mergeSort (fun a b => a.order ≤ b.order) := by
    have h := (Option.some.injEq _ _).mp hbp
    rw [← h]
    exact ⟨rfl, rfl, rfl⟩
  refine ⟨?_, ?_, ?_⟩
  · intro x
    rw [hpl.1, (hbm).1 x]
    constructor
    · rintro ⟨g, hg, hx⟩
      obtain ⟨p, hp, hed, hnm, hnone⟩ := (hpm g.parameters).1 x |>.mp hx
      refine ⟨⟨g, hg, p, hp, hed, hnm⟩, ?_⟩
      rw [hnm] at hnone
      exact (get_user_parameters_lookup d x).1.mp hnone
    · rintro ⟨⟨g, hg, p, hp, hed, hnm⟩, hno⟩
      refine ⟨g, hg, ?_⟩
      apply (hpm g.parameters).1 x |>.mpr
      refine ⟨p, hp, hed, hnm, ?_⟩
      rw [hnm]
      exact (get_user_parameters_lookup d x).1.mpr hno
  · intro x
    rw [hpl.2.1]
    rw [List.mem_filter]
    have hkeys : x ∈ dictKeys (get_user_parameters d) ↔
        ∃ q ∈ d.userParams, q.name = x := by
      rw [← assocLookup_isSome_iff]
      rw [Option.isSome_iff_ne_none]
      constructor
      · intro h
        by_contra hno
        exact h ((get_user_parameters_lookup d x).1.mpr hno)
      · intro h hnone
        exact ((get_user_parameters_lookup d x).1.mp hnone) h
    constructor
    · rintro ⟨hmem, hpred⟩
      rw [Bool.and_eq_true] at hpred
      obtain ⟨hnc, hne⟩ := hpred
      refine ⟨hkeys.mp hmem, ?_, ?_⟩
      · intro ⟨g, hg, p, hp, hnm⟩
        rw [Bool.not_eq_true'] at hnc
        have : x ∈ allSchemaNames schema := by
          unfold allSchemaNames
          rw [List.mem_flatMap]
          exact ⟨g, hg, by rw [List.mem_map]; exact ⟨p, hp, hnm⟩⟩
        have hc := List.elem_eq_true_of_mem this
        have hnc' : List.elem x (allSchemaNames schema) = false := hnc
        rw [hnc'] at hc
        exact Bool.noConfusion hc
      · exact bne_iff_ne.mp hne
    · rintro ⟨hmem, hnos, hnfp⟩
      refine ⟨hkeys.mpr hmem, ?_⟩
      rw [Bool.and_eq_true]
      refine ⟨?_, bne_iff_ne.mpr hnfp⟩
      rw [Bool.not_eq_true']
      by_contra hc
      rw [Bool.not_eq_false] at hc
      have hc' := List.mem_of_elem_eq_true
        (show List.elem x (allSchemaNames schema) = true from hc)
      unfold allSchemaNames at hc'
      rw [List.mem_flatMap] at hc'
      obtain ⟨g, hg, hx⟩ := hc'
      rw [List.mem_map] at hx
      obtain ⟨p, hp, hnm⟩ := hx
      exact hnos ⟨g, hg, p, hp, hnm⟩
  · intro gr hgr e he
    rw [hpl.2.2] at hgr
    rw [List.mem_mergeSort] at hgr
    obtain ⟨g, hg, hgr'⟩ := (hbm).2 gr |>.mp hgr
    rw [hgr'] at he
    obtain ⟨p, hp, hed, info, hlk, hinfo⟩ :=
      (hpm g.parameters).2 e |>.mp he
    obtain ⟨q, hq, hqn, hqi⟩ := (get_user_parameters_lookup d p.name).2
      info hlk
    have hename : e.name = p.name := by rw [hinfo]; rfl
    constructor
    · exact ⟨g, hg, p, hp, hed, by rw [hename]⟩
    · refine ⟨q, hq, by rw [hename]; exact hqn, ?_, ?_, ?_⟩
      · rw [hinfo, hqi]; rfl
      · rw [hinfo, hqi]; rfl
      · rw [hinfo, hqi]; rfl

/-- An arbitrary payload used only as the `Option.getD` default of the C3
witness (never reached: `build_ui_payload` with a loaded schema is `some`). -/
def junkPayload : UIPayload :=
  { schemaVersion := ""
    templateVersion := ""
    groups := []
    missing := []
    extra := []
    extraParams := []
    mode := ""
    fingerprint := none
    hasFingerprint := false
    documentUnit := "" }

/-- Witness for C3: at the sample schema and design, the present editable
parameter is not reported missing. -/
theorem build_ui_payload_partition_witness :
    ¬ ("ScaleLength" ∈ ((build_ui_payload (some sampleSchema) "in"
        sampleDesign).getD junkPayload).missing) := by
  have h := (build_ui_payload_partition sampleSchema "in" sampleDesign
    ((build_ui_payload (some sampleSchema) "in"
      sampleDesign).getD junkPayload) rfl).1 "ScaleLength"
  intro hmem
  obtain ⟨_, hno⟩ := h.mp hmem
  apply hno
  refine ⟨{ name := "ScaleLength"
            expression := "24.75"
            value := 0
            unit := "in"
            comment := "" }, ?_, rfl⟩
  show _ ∈ sampleDesign.userParams
  decide

-- ═════════════════════════════════════════════════════════════════
-- C1 — stash / fire / deferred-execute protocol
-- ═════════════════════════════════════════════════════════════════

namespace entry

theorem deferred_apply_of_none (env : HostEnv) (s : PluginState)
    (h : s.pendingApply = none) :
    _deferred_apply_handler env s = s := by
  obtain ⟨ds, pa, pt, st, fi⟩ := s
  simp only at h
  subst h
  rfl

theorem deferred_timeline_of_none (env : HostEnv) (s : PluginState)
    (h : s.pendingTimelineOp = none) :
    _deferred_timeline_handler env s = s := by
  obtain ⟨ds, pa, pt, st, fi⟩ := s
  simp only at h
  subst h
  rfl

theorem deferred_apply_clears (env : HostEnv) (s : PluginState) :
    (_deferred_apply_handler env s).pendingApply = none := by
  obtain ⟨ds, pa, pt, st, fi⟩ := s
  cases pa with
  | none => rfl
  | some pv =>
    cases ds with
    | none => rfl
    | some d0 =>
      unfold _deferred_apply_handler
      dsimp only
      by_cases hz : d0.userParams = []
      · rw [if_pos hz]
        cases htd : env.templateDesign? with
        | none => rfl
        | some td =>
          dsimp only
          unfold _on_refresh_request
          dsimp only
          cases build_ui_payload env.schema? env.docUnit
              (apply_parameters env.schema? env.applyFail
                (set_fingerprint env.addFpFails td) pv).1 with
          | none => rfl
          | some payload =>
            dsimp only
            unfold sendInfoToHTML
            by_cases hp : env.paletteExists = true
            · rw [if_pos hp]
            · rw [if_neg hp]
      · rw [if_neg hz]
        dsimp only
        unfold _on_refresh_request
        dsimp only
        cases build_ui_payload env.schema? env.docUnit
            (apply_parameters env.schema? env.applyFail d0 pv).1 with
        | none => rfl
        | some payload =>
          dsimp only
          unfold sendInfoToHTML
          by_cases hp : env.paletteExists = true
          · rw [if_pos hp]
          · rw [if_neg hp]

theorem deferred_timeline_clears (env : HostEnv) (s : PluginState) :
    (_deferred_timeline_handler env s).pendingTimelineOp = none := by
  obtain ⟨ds, pa, pt, st, fi⟩ := s
  cases pt with
  | none => rfl
  | some op =>
    unfold _deferred_timeline_handler
    dsimp only
    by_cases hact : (op.action != "APPLY_TIMELINE_CHANGES") = true
    · rw [if_pos hact]
    · rw [if_neg hact]
      cases ds with
      | none => rfl
      | some d =>
        dsimp only
        unfold sendInfoToHTML
        by_cases hp : env.paletteExists = true
        · rw [if_pos hp]
        · rw [if_neg hp]

/-- C1: messages that require document mutation follow the
stash-fire-deferred protocol: the palette incoming handlers for
APPLY_PARAMS and APPLY_TIMELINE_CHANGES leave the design untouched, stash
the parsed payload in the module-level pending slot and fire the
corresponding custom event; each deferred handler clears its slot (so a
stashed payload runs at most once — running a handler twice equals running
it once), and after performing the mutation pushes a JSON result back to
the palette. -/
theorem deferred_mutation_protocol (env : HostEnv) (s : PluginState)
    (pv : List (String × String)) (changes : List TChange) :
    (∀ parsed, (_on_apply_params env s parsed).design? = s.design?) ∧
    (_on_apply_params env s (some pv)).pendingApply = some pv ∧
    (_on_apply_params env s (some pv)).fired
        = s.fired ++ [APPLY_EVENT_ID] ∧
    (∀ parsed, (_queue_timeline_op env s "APPLY_TIMELINE_CHANGES"
        parsed).design? = s.design?) ∧
    (_queue_timeline_op env s "APPLY_TIMELINE_CHANGES"
        (some changes)).pendingTimelineOp
        = some { action := "APPLY_TIMELINE_CHANGES", changes := changes } ∧
    (_queue_timeline_op env s "APPLY_TIMELINE_CHANGES"
        (some changes)).fired = s.fired ++ [TIMELINE_EVENT_ID] ∧
    (_deferred_apply_handler env s).pendingApply = none ∧
    (_deferred_timeline_handler env s).pendingTimelineOp = none ∧
    _deferred_apply_handler env (_deferred_apply_handler env s)
        = _deferred_apply_handler env s ∧
    _deferred_timeline_handler env (_deferred_timeline_handler env s)
        = _deferred_timeline_handler env s ∧
    (∀ d sch, s.pendingApply = some pv → s.design? = some d →
      d.userParams ≠ [] → env.paletteExists = true →
      env.schema? = some sch →
      ∃ p, (_deferred_apply_handler env s).sent
          = s.sent ++ [SentMsg.pushModelState p]) ∧
    (∀ op d, s.pendingTimelineOp = some op →
      op.action = "APPLY_TIMELINE_CHANGES" → s.design? = some d →
      env.paletteExists = true →
      ∃ b msg n f, (_deferred_timeline_handler env s).sent
          = s.sent ++ [SentMsg.timelineResult b msg n f]) := by
  refine ⟨?_, ?_, ?_, ?_, ?_, ?_,
    deferred_apply_clears env s, deferred_timeline_clears env s,
    deferred_apply_of_none env _ (deferred_apply_clears env s),
    deferred_timeline_of_none env _ (deferred_timeline_clears env s),
    ?_, ?_⟩
  · intro parsed
    cases parsed with
    | none => rfl
    | some pv' =>
      unfold _on_apply_params sendInfoToHTML
      dsimp only
      by_cases hp : env.paletteExists = true
      · rw [if_pos hp]
      · rw [if_neg hp]
  · unfold _on_apply_params sendInfoToHTML
    dsimp only
    by_cases hp : env.paletteExists = true
    · rw [if_pos hp]
    · rw [if_neg hp]
  · unfold _on_apply_params sendInfoToHTML
    dsimp only
    by_cases hp : env.paletteExists = true
    · rw [if_pos hp]
    · rw [if_neg hp]
  · intro parsed
    cases parsed with
    | none => rfl
    | some changes' => rfl
  · rfl
  · rfl
  · intro d sch hpa hds hne hpal hsch
    obtain ⟨ds, pa, pt, st, fi⟩ := s
    simp only at hpa hds
    subst hpa
    subst hds
    refine ⟨(build_ui_payload (some sch) env.docUnit
      (apply_parameters (some sch) env.applyFail d pv).1).getD
        junkPayload, ?_⟩
    unfold _deferred_apply_handler
    dsimp only
    rw [if_neg hne]
    dsimp only
    unfold _on_refresh_request
    dsimp only
    rw [hsch]
    show (sendInfoToHTML env _ _).sent = _
    unfold sendInfoToHTML
    rw [if_pos hpal]
    rfl
  · intro op d hpt hact hds hpal
    obtain ⟨ds, pa, pt, st, fi⟩ := s
    obtain ⟨act, chs⟩ := op
    simp only at hpt hds hact
    subst hpt
    subst hds
    subst hact
    refine ⟨(applyChanges env d chs).2.2.isEmpty,
      toString "Applied " ++ toString (applyChanges env d chs).2.1
        ++ toString " change(s)"
        ++ (if (applyChanges env d chs).2.2.isEmpty then ""
            else toString " ("
              ++ toString (applyChanges env d chs).2.2.length
              ++ toString " failed)"),
      (applyChanges env d chs).2.1, (applyChanges env d chs).2.2, ?_⟩
    unfold _deferred_timeline_handler
    dsimp only
    simp only [bne_self_eq_false, Bool.false_eq_true, if_false]
    unfold sendInfoToHTML
    rw [if_pos hpal]

end entry

/-- Witness for C1: a concrete session state exercising both deferred
pushes. -/
theorem deferred_mutation_protocol_witness :
    (∃ p, (entry._deferred_apply_handler
        { paletteExists := true
          schema? := some sampleSchema
          docUnit := "in"
          templateDesign? := none
          applyFail := fun _ _ => false
          addFpFails := fun _ => false
          tl := tlOk
          changeRaises := fun _ => false }
        { design? := some sampleDesign
          pendingApply := some [("ScaleLength", "25.5")]
          pendingTimelineOp := none
          sent := []
          fired := [] }).sent = [entry.SentMsg.pushModelState p]) ∧
    (entry._on_apply_params
        { paletteExists := true
          schema? := some sampleSchema
          docUnit := "in"
          templateDesign? := none
          applyFail := fun _ _ => false
          addFpFails := fun _ => false
          tl := tlOk
          changeRaises := fun _ => false }
        { design? := some sampleDesign
          pendingApply := none
          pendingTimelineOp := none
          sent := []
          fired := [] }
        (some [("ScaleLength", "25.5")])).design? = some sampleDesign := by
  constructor
  · have h := (entry.deferred_mutation_protocol
      { paletteExists := true
        schema? := some sampleSchema
        docUnit := "in"
        templateDesign? := none
        applyFail := fun _ _ => false
        addFpFails := fun _ => false
        tl := tlOk
        changeRaises := fun _ => false }
      { design? := some sampleDesign
        pendingApply := some [("ScaleLength", "25.5")]
        pendingTimelineOp := none
        sent := []
        fired := [] }
      [("ScaleLength", "25.5")] []).2.2.2.2.2.2.2.2.2.2.1
      sampleDesign sampleSchema rfl rfl (by decide) rfl rfl
    simpa using h
  · exact (entry.deferred_mutation_protocol
      { paletteExists := true
        schema? := some sampleSchema
        docUnit := "in"
        templateDesign? := none
        applyFail := fun _ _ => false
        addFpFails := fun _ => false
        tl := tlOk
        changeRaises := fun _ => false }
      { design? := some sampleDesign
        pendingApply := none
        pendingTimelineOp := none
        sent := []
        fired := [] }
      [("ScaleLength", "25.5")] []).1 (some [("ScaleLength", "25.5")])

end GuitarMaker
